import Mathlib

/-!
Shallow embedding of the sheet-publishing engine of
`server_metrics_sheet_updater` (src/services/sheets.py,
src/services/sheets_dashboard.py and src2/services/sheets.py),
together with proofs of the spec's testable properties.
-/

set_option maxHeartbeats 1000000

namespace SheetUpdater

/-- Scalar cell value of a tabular dataset (pandas DataFrame cell):
text, number, a timestamp (carried together with its
`%Y-%m-%d %H:%M:%S` rendering), or missing (NaN/NaT). -/
inductive Val where
  | str (s : String)
  | num (q : Int)
  | dt (s : String)
  | null
deriving DecidableEq, Repr

/-- Column dtype of a pandas column: `object` (text), numeric, or datetime. -/
inductive Dtype where
  | obj
  | numeric
  | datetime
deriving DecidableEq, Repr

/-- One named dataset column: name, dtype and the ordered cell values. -/
structure Column where
  name : String
  dtype : Dtype
  vals : List Val
deriving DecidableEq, Repr

/-- A tabular dataset: ordered sequence of named columns
(column-major rendering of a pandas DataFrame). -/
structure DataFrame where
  cols : List Column
deriving DecidableEq, Repr

/-- Number of data rows (length of the first column; all columns of a
well-formed dataset share it). -/
def DataFrame.nrows (df : DataFrame) : Nat :=
  match df.cols with
  | [] => 0
  | c :: _ => c.vals.length

/-- Pandas `df.empty`: true when either axis has length 0. -/
def DataFrame.isEmpty (df : DataFrame) : Bool :=
  df.cols.isEmpty || df.nrows == 0

/-- Python `str.strip()`: drop leading and trailing whitespace. -/
def pyStrip (s : String) : String :=
  ⟨((s.data.dropWhile Char.isWhitespace).reverse.dropWhile Char.isWhitespace).reverse⟩

/-- Strip of a single value: `str.strip()` trims text, everything else is
returned unchanged (`x.str.strip()` leaves non-text entries as NaN). -/
def stripVal : Val → Val
  | .str s => .str (pyStrip s)
  | v => v

/-- Strip of one column: `x.str.strip() if x.dtype == "object" else x`. -/
def stripCol (c : Column) : Column :=
  if c.dtype = .obj then { c with vals := c.vals.map stripVal } else c

/-- The `df.apply(lambda x: x.str.strip() if x.dtype == "object" else x)`
step of `update_snapshot`: a new dataset with text values trimmed. -/
def stripDF (df : DataFrame) : DataFrame :=
  ⟨df.cols.map stripCol⟩

/-- Bijective base-26 rendering with explicit fuel (the fuel only makes
the recursion structural; it is never exhausted when `fuel ≥ n`). -/
def colLetterAux : Nat → Nat → String
  | _, 0 => ""
  | 0, _ + 1 => ""
  | fuel + 1, n + 1 =>
    colLetterAux fuel (n / 26) ++ String.singleton (Char.ofNat (65 + n % 26))

/-- Column letter of a 1-based column index, as produced by
`rowcol_to_a1(1, i).replace("1", "")` (bijective base 26). -/
def colLetter (n : Nat) : String :=
  colLetterAux n n

/-- RGB color with components as exact rationals, mirroring the float
literals of the style tables. -/
structure Color where
  red : Rat
  green : Rat
  blue : Rat
deriving DecidableEq, Repr

/-- The `textFormat` sub-record of a cell format. -/
structure TextFormatSpec where
  foregroundColor : Option Color := none
  bold : Option Bool := none
  fontSize : Option Nat := none
deriving DecidableEq, Repr

/-- The `numberFormat` sub-record of a cell format. -/
structure NumberFormatSpec where
  ntype : String
  pattern : Option String := none
deriving DecidableEq, Repr

/-- The `borders` sub-record: border styles per edge. -/
structure BordersSpec where
  top : Option String := none
  bottom : Option String := none
  left : Option String := none
  right : Option String := none
deriving DecidableEq, Repr

/-- A cell format dictionary as passed to `ws.format` / `batch_format`:
only the top-level keys actually used by the program. -/
structure CellFormat where
  backgroundColor : Option Color := none
  textFormat : Option TextFormatSpec := none
  horizontalAlignment : Option String := none
  verticalAlignment : Option String := none
  borders : Option BordersSpec := none
  numberFormat : Option NumberFormatSpec := none
deriving DecidableEq, Repr

/-- The `SheetsService.FORMATS` registry of number formats. -/
def FORMATS : String → Option CellFormat
  | "NUMBER" => some { numberFormat := some ⟨"NUMBER", some "0.0"⟩ }
  | "INTEGER" => some { numberFormat := some ⟨"NUMBER", some "0"⟩ }
  | "PERCENT" => some { numberFormat := some ⟨"PERCENT", some "0.0%"⟩ }
  | "DATE_TIME" => some { numberFormat := some ⟨"DATE_TIME", some "yyyy-mm-dd hh:mm:ss"⟩ }
  | "TEXT" => some { numberFormat := some ⟨"TEXT", none⟩ }
  | "DURATION" => some { numberFormat := some ⟨"TIME", some "[h]:mm:ss"⟩ }
  | _ => none

/-- Blue used by the header styles. -/
def blueBg : Color := ⟨258/1000, 52/100, 956/1000⟩

/-- White. -/
def whiteC : Color := ⟨1, 1, 1⟩

/-- Black. -/
def blackC : Color := ⟨0, 0, 0⟩

/-- Style `HEADER_MAIN`. -/
def HEADER_MAIN : CellFormat :=
  { backgroundColor := some blueBg
    textFormat := some ⟨some whiteC, some true, some 12⟩
    horizontalAlignment := some "CENTER"
    verticalAlignment := some "MIDDLE" }

/-- Style `METADATA_LABEL`. -/
def METADATA_LABEL : CellFormat :=
  { backgroundColor := some blueBg
    textFormat := some ⟨some whiteC, some true, some 10⟩
    horizontalAlignment := some "RIGHT" }

/-- Style `HEADER_BLUE`. -/
def HEADER_BLUE : CellFormat :=
  { backgroundColor := some blueBg
    textFormat := some ⟨some whiteC, some true, some 10⟩
    horizontalAlignment := some "CENTER" }

/-- Style `TABLE_BASE`: solid borders and black default text. -/
def TABLE_BASE : CellFormat :=
  { borders := some ⟨some "SOLID", some "SOLID", some "SOLID", some "SOLID"⟩
    textFormat := some ⟨some blackC, none, none⟩ }

/-- Style `METADATA_VALUE`. -/
def METADATA_VALUE : CellFormat :=
  { backgroundColor := some whiteC
    borders := some ⟨some "SOLID", some "SOLID", some "SOLID", some "SOLID"⟩
    textFormat := some ⟨some blackC, none, none⟩
    horizontalAlignment := some "CENTER" }

/-- Style `ALERT_RED`. -/
def ALERT_RED : CellFormat :=
  { backgroundColor := some ⟨1, 8/10, 8/10⟩
    textFormat := some ⟨some ⟨8/10, 0, 0⟩, some true, none⟩ }

/-- The `SheetsService.CONDITION_MAP` operator registry. -/
def CONDITION_MAP : String → Option String
  | ">" => some "NUMBER_GREATER"
  | ">=" => some "NUMBER_GREATER_THAN_EQ"
  | "<" => some "NUMBER_LESS"
  | "<=" => some "NUMBER_LESS_THAN_EQ"
  | "==" => some "TEXT_EQ"
  | "between" => some "NUMBER_BETWEEN"
  | "not_between" => some "NUMBER_NOT_BETWEEN"
  | _ => none

/-- A rectangular A1-style cell range, 1-based inclusive on both ends. -/
structure CellRange where
  colStart : Nat
  rowStart : Nat
  colEnd : Nat
  rowEnd : Nat
deriving DecidableEq, Repr

/-- Whether a range contains the cell at (1-based) row `r`, column `c`. -/
def CellRange.containsCell (rng : CellRange) (r c : Nat) : Bool :=
  decide (rng.rowStart ≤ r) && decide (r ≤ rng.rowEnd) &&
  decide (rng.colStart ≤ c) && decide (c ≤ rng.colEnd)

/-- A zero-based half-open grid range, as produced by
`a1_range_to_grid_range`. -/
structure GridRange where
  sheetId : Nat
  startRowIndex : Nat
  endRowIndex : Nat
  startColumnIndex : Nat
  endColumnIndex : Nat
deriving DecidableEq, Repr

/-- Conversion from an A1 range to a grid range (`a1_range_to_grid_range`). -/
def toGridRange (rng : CellRange) (sid : Nat) : GridRange :=
  ⟨sid, rng.rowStart - 1, rng.rowEnd, rng.colStart - 1, rng.colEnd⟩

/-- Python `str(...)` applied to an optional string (`str(None) = "None"`). -/
def pyStr : Option String → String
  | some s => s
  | none => "None"

/-- A threshold rule from the layout configuration; optional fields model
the `dict.get` accesses of the source. -/
structure Threshold where
  operator : Option String := none
  value : Option String := none
  min : Option String := none
  max : Option String := none
deriving DecidableEq, Repr

/-- Per-column configuration: display name, optional format kind
(`.get("format", "TEXT")` in the source) and optional threshold. -/
structure ColumnConfig where
  name : String
  format : Option String := none
  threshold : Option Threshold := none
deriving DecidableEq, Repr

/-- Tab layout configuration (the `servers_config` / `cameras_config`
dictionaries): target tab, title, optional history tab, ordered column
mapping and optional merge column. -/
structure TabConfig where
  tab_name : String
  title : Option String := none
  history_tab : Option String := none
  columns : List (String × ColumnConfig) := []
  merge_column : Option String := none
deriving DecidableEq, Repr

/-- The `{v["name"]: v for k, v in columns_config.items()}` lookup:
maps a display name to its column configuration; on duplicate display
names the last insertion wins, as for a Python dict comprehension. -/
def finalNameMap (columns : List (String × ColumnConfig)) (name : String) :
    Option ColumnConfig :=
  ((columns.map Prod.snd).reverse).find? (fun v => v.name == name)

/-- Loop body collection of `_apply_data_formats`, carrying the 1-based
column index `i + 1` explicitly (the source enumerates `df.columns`):
each configured column whose format kind has a registered `FORMATS`
entry contributes one `(range, format)` batch item spanning rows
`start_row + 1` through `start_row + 1 + len(df)` of that column. -/
def dataFormatGo (columns : List (String × ColumnConfig)) (startRow nrows : Nat) :
    List Column → Nat → List (CellRange × CellFormat)
  | [], _ => []
  | c :: rest, i =>
    match finalNameMap columns c.name with
    | none => dataFormatGo columns startRow nrows rest (i + 1)
    | some conf =>
      match FORMATS (conf.format.getD "TEXT") with
      | none => dataFormatGo columns startRow nrows rest (i + 1)
      | some rule =>
        (⟨i + 1, startRow + 1, i + 1, startRow + 1 + nrows⟩, rule)
          :: dataFormatGo columns startRow nrows rest (i + 1)

/-- The batch built by `SheetsService._apply_data_formats`. -/
def dataFormatBatch (df : DataFrame) (columns : List (String × ColumnConfig))
    (startRow : Nat) : List (CellRange × CellFormat) :=
  dataFormatGo columns startRow df.nrows df.cols 0

/-- Whether some entry of a format batch covers the cell `(r, c)`. -/
def coveredByBatch (batch : List (CellRange × CellFormat)) (r c : Nat) : Bool :=
  batch.any (fun e => e.1.containsCell r c)

/-- The two-entry batch built by `SheetsService._apply_visual_styles`:
the base table style over `A{start}:{last}{start+len(df)}` followed by
the header style over the header row `A{start}:{last}{start}`. -/
def visualStylesBatch (df : DataFrame) (startRow : Nat) :
    List (CellRange × CellFormat) :=
  [ (⟨1, startRow, df.cols.length, startRow + df.nrows⟩, TABLE_BASE),
    (⟨1, startRow, df.cols.length, startRow⟩, HEADER_BLUE) ]

/-- A conditional-format rule request body (`booleanRule` with ranges,
condition type, comparison values and the alert format). -/
structure CondRule where
  ranges : List GridRange
  condType : String
  values : List String
  fmt : CellFormat
deriving DecidableEq, Repr

/-- Translation of one configured column's threshold into a conditional
rule, mirroring the loop body of `_apply_conditional_rules`: the `!=`
operator is special-cased as a `CUSTOM_FORMULA` with a `TRIM` comparison
(quoting the value when the column format is `TEXT`), `between` and
`not_between` carry `[min, max]`, other operators go through
`CONDITION_MAP`, and an unmapped operator yields no rule. -/
def ruleForColumn (conf : ColumnConfig) (colIdx1 rowStart rowEnd sid : Nat) :
    Option CondRule :=
  match conf.threshold with
  | none => none
  | some threshold =>
    let operator := threshold.operator.getD ""
    let colL := colLetter colIdx1
    let gridRange := toGridRange ⟨colIdx1, rowStart, colIdx1, rowEnd⟩ sid
    let ctv : Option (String × List String) :=
      if operator = "!=" then
        let fmt := conf.format.getD "TEXT"
        let valStr :=
          if fmt = "TEXT" then "\"" ++ pyStr threshold.value ++ "\""
          else pyStr threshold.value
        some ("CUSTOM_FORMULA",
          ["=TRIM(" ++ colL ++ toString rowStart ++ ")<>" ++ valStr])
      else
        match CONDITION_MAP operator with
        | some gsType =>
          if operator = "between" ∨ operator = "not_between" then
            some (gsType, [pyStr threshold.min, pyStr threshold.max])
          else
            some (gsType, [pyStr threshold.value])
        | none => none
    match ctv with
    | none => none
    | some (t, vs) => some ⟨[gridRange], t, vs, ALERT_RED⟩

/-- Per-column collection of `_apply_conditional_rules`, carrying the
enumeration index. -/
def condRulesGo (columns : List (String × ColumnConfig))
    (rowStart rowEnd sid : Nat) : List Column → Nat → List CondRule
  | [], _ => []
  | c :: rest, i =>
    match finalNameMap columns c.name with
    | none => condRulesGo columns rowStart rowEnd sid rest (i + 1)
    | some conf =>
      match ruleForColumn conf (i + 1) rowStart rowEnd sid with
      | none => condRulesGo columns rowStart rowEnd sid rest (i + 1)
      | some r => r :: condRulesGo columns rowStart rowEnd sid rest (i + 1)

/-- The list of rules built by `SheetsService._apply_conditional_rules`,
over the data rows `start_row + 1` through `start_row + len(df)`. -/
def condRules (df : DataFrame) (columns : List (String × ColumnConfig))
    (startRow sid : Nat) : List CondRule :=
  condRulesGo columns (startRow + 1) (startRow + df.nrows) sid df.cols 0

/-- Content of one sheet cell: a literal value or a formula string. -/
inductive CellVal where
  | val (v : Val)
  | formula (s : String)
deriving DecidableEq, Repr

/-- State of one remote worksheet: id, grid size, cell contents, cell
formats, merged regions and conditional-format rules. Content and
formats are total maps over (row, column) pairs; cells outside the grid
simply hold `none` / the default format. -/
structure Sheet where
  sheetId : Nat
  nrows : Nat
  ncols : Nat
  cells : Nat × Nat → Option CellVal
  formats : Nat × Nat → CellFormat
  merges : List CellRange
  condRules : List CondRule

/-- Field-wise merge of a format write into a cell's current format:
`ws.format` issues `repeatCell` with `fields` naming only the top-level
keys of the supplied dictionary, so each supplied top-level field
replaces the stored one and unsupplied fields survive. -/
def mergeFmt (old new : CellFormat) : CellFormat :=
  { backgroundColor := new.backgroundColor.orElse (fun _ => old.backgroundColor)
    textFormat := new.textFormat.orElse (fun _ => old.textFormat)
    horizontalAlignment := new.horizontalAlignment.orElse (fun _ => old.horizontalAlignment)
    verticalAlignment := new.verticalAlignment.orElse (fun _ => old.verticalAlignment)
    borders := new.borders.orElse (fun _ => old.borders)
    numberFormat := new.numberFormat.orElse (fun _ => old.numberFormat) }

/-- Application of one `(range, format)` write to a format map. -/
def applyFmtWrite (f : Nat × Nat → CellFormat) (w : CellRange × CellFormat) :
    Nat × Nat → CellFormat :=
  fun p => if w.1.containsCell p.1 p.2 then mergeFmt (f p) w.2 else f p

/-- Sequential application of a format batch (list order = issue order,
later writes override earlier ones on overlapping cells). -/
def applyFmtList (f : Nat × Nat → CellFormat)
    (ws : List (CellRange × CellFormat)) : Nat × Nat → CellFormat :=
  ws.foldl applyFmtWrite f

/-- One cell-content write. -/
def applyCellWrite (f : Nat × Nat → Option CellVal)
    (w : (Nat × Nat) × CellVal) : Nat × Nat → Option CellVal :=
  fun p => if p = w.1 then some w.2 else f p

/-- Sequential application of a list of cell-content writes. -/
def applyCellWrites (f : Nat × Nat → Option CellVal)
    (ws : List ((Nat × Nat) × CellVal)) : Nat × Nat → Option CellVal :=
  ws.foldl applyCellWrite f

/-- Header-row writes of `set_with_dataframe`: the display name of the
column at (0-based) position `j` goes to cell `(startRow, j + 1)`. -/
def tableHeaderGo (startRow : Nat) : List Column → Nat → List ((Nat × Nat) × CellVal)
  | [], _ => []
  | c :: rest, j =>
    ((startRow, j + 1), CellVal.val (.str c.name)) :: tableHeaderGo startRow rest (j + 1)

/-- Data writes of one column: the value at (0-based) row `r` goes to
cell `(startRow + 1 + r, j + 1)`. -/
def colDataWrites (startRow j : Nat) : List Val → Nat → List ((Nat × Nat) × CellVal)
  | [], _ => []
  | v :: rest, r =>
    ((startRow + 1 + r, j + 1), CellVal.val v) :: colDataWrites startRow j rest (r + 1)

/-- Data-block writes of `set_with_dataframe`, column by column. -/
def tableDataGo (startRow : Nat) : List Column → Nat → List ((Nat × Nat) × CellVal)
  | [], _ => []
  | c :: rest, j =>
    colDataWrites startRow j c.vals 0 ++ tableDataGo startRow rest (j + 1)

/-- Cell writes issued by `set_with_dataframe(ws, df, row=start)`: the
header row of display names at row `start`, then the data block at rows
`start + 1` onward. -/
def tableWrites (startRow : Nat) (df : DataFrame) : List ((Nat × Nat) × CellVal) :=
  tableHeaderGo startRow df.cols 0 ++ tableDataGo startRow df.cols 0

/-- One remote mutation call against a worksheet, as issued by
`update_snapshot` (batched format calls are flattened to their entries,
preserving order). -/
inductive SheetCall where
  | clear
  | unmergeAll (rng : CellRange)
  | mergeCells (rng : CellRange)
  | writeCells (ws : List ((Nat × Nat) × CellVal))
  | formatRange (rng : CellRange) (fmt : CellFormat)
  | setTable (startRow : Nat) (df : DataFrame)
  | deleteCondRule (idx : Nat)
  | addCondRule (r : CondRule) (idx : Nat)

/-- Whether a merged region lies inside the rectangle `A1:Z{rowCount}`
used by the publisher's unmerge call (columns 1–26, rows 1–rowCount). -/
def inUnmergeRange (m : CellRange) (rowCount : Nat) : Bool :=
  decide (1 ≤ m.colStart) && decide (m.colEnd ≤ 26) &&
  decide (1 ≤ m.rowStart) && decide (m.rowEnd ≤ rowCount)

/-- State transition of one mutation call. `clear` erases all values
(formats survive, as for the values-only `ws.clear()`); `setTable`
writes the table and resizes the grid to exactly fit
(`resize=True` in `set_with_dataframe`, anchored at `row=start`,
`col=1`, header included). -/
def applyCall (s : Sheet) : SheetCall → Sheet
  | .clear => { s with cells := fun _ => none }
  | .unmergeAll rng =>
    let keep : CellRange → Bool := fun m =>
      !(decide (rng.colStart ≤ m.colStart) && decide (m.colEnd ≤ rng.colEnd) &&
        decide (rng.rowStart ≤ m.rowStart) && decide (m.rowEnd ≤ rng.rowEnd))
    { s with merges := s.merges.filter keep }
  | .mergeCells rng => { s with merges := s.merges ++ [rng] }
  | .writeCells ws => { s with cells := applyCellWrites s.cells ws }
  | .formatRange rng fmt => { s with formats := applyFmtWrite s.formats (rng, fmt) }
  | .setTable startRow df =>
    { s with cells := applyCellWrites s.cells (tableWrites startRow df),
             nrows := startRow + df.nrows,
             ncols := df.cols.length }
  | .deleteCondRule idx => { s with condRules := s.condRules.eraseIdx idx }
  | .addCondRule r idx => { s with condRules := s.condRules.insertIdx idx r }

/-- Sequential application of a call list. -/
def applyCalls (s : Sheet) (cs : List SheetCall) : Sheet :=
  cs.foldl applyCall s

/-- The delete requests issued by `_clean_sheet_metadata` when the sheet
metadata reports `rulesCount` conditional-format rules: one
`deleteConditionalFormatRule` request per existing rule, every one of
them at index 0. -/
def deleteRuleCalls (rulesCount : Nat) : List SheetCall :=
  (List.range rulesCount).map (fun _ => SheetCall.deleteCondRule 0)

/-- The calls issued by `SheetsService._clean_sheet_metadata`: a values
clear, an unmerge of `A1:Z{row_count}`, and the per-rule deletions. -/
def cleanSheetCalls (rowCount rulesCount : Nat) : List SheetCall :=
  SheetCall.clear :: SheetCall.unmergeAll ⟨1, 1, 26, rowCount⟩
    :: deleteRuleCalls rulesCount

/-- The full mutation-call trace of `SheetsService.update_snapshot`:
empty-dataset guard, text strip, metadata cleanup driven by the current
sheet state, metadata block (merged title, labels, timestamp, elapsed
formula, metadata styles), table write at row 6, data number formats,
visual styles, and conditional rules each added at index 0. -/
def updateSnapshotCalls (cfg : TabConfig) (df0 : DataFrame)
    (timeChile timeUtc : String) (s : Sheet) : List SheetCall :=
  if df0.isEmpty then []
  else
    cleanSheetCalls s.nrows s.condRules.length
    ++ [ .mergeCells ⟨1, 1, 2, 1⟩,
         .writeCells [((1, 1), .val (.str (cfg.title.getD "Reporte")))],
         .formatRange ⟨1, 1, 1, 1⟩ HEADER_MAIN,
         .writeCells [((2, 1), .val (.str "Última actualización (Chile)")),
                      ((3, 1), .val (.str "Tiempo transcurrido:"))],
         .writeCells [((2, 2), .val (.str timeChile))],
         .writeCells [((3, 2), .formula "=NOW()-B2")],
         .formatRange ⟨1, 2, 1, 3⟩ METADATA_LABEL,
         .formatRange ⟨2, 2, 2, 3⟩ METADATA_VALUE,
         .formatRange ⟨2, 2, 2, 2⟩ ((FORMATS "DATE_TIME").getD {}),
         .formatRange ⟨2, 3, 2, 3⟩ ((FORMATS "DURATION").getD {}),
         .setTable 6 (stripDF df0) ]
    ++ (dataFormatBatch (stripDF df0) cfg.columns 6).map (fun e => .formatRange e.1 e.2)
    ++ (visualStylesBatch (stripDF df0) 6).map (fun e => .formatRange e.1 e.2)
    ++ (condRules (stripDF df0) cfg.columns 6 s.sheetId).map (fun r => .addCondRule r 0)

/-- The effect of `SheetsService.update_snapshot` on the target sheet. -/
def updateSnapshot (cfg : TabConfig) (df : DataFrame)
    (timeChile timeUtc : String) (s : Sheet) : Sheet :=
  applyCalls s (updateSnapshotCalls cfg df timeChile timeUtc s)

/-- The metadata-block cell writes of `update_snapshot`, in issue order
(title, labels, timestamp, elapsed-time formula). -/
def metaCellWrites (cfg : TabConfig) (timeChile : String) :
    List ((Nat × Nat) × CellVal) :=
  [((1, 1), .val (.str (cfg.title.getD "Reporte"))),
   ((2, 1), .val (.str "Última actualización (Chile)")),
   ((3, 1), .val (.str "Tiempo transcurrido:")),
   ((2, 2), .val (.str timeChile)),
   ((3, 2), .formula "=NOW()-B2")]

/-- The metadata-block format writes of `update_snapshot`, in issue
order. -/
def metaFmtWrites : List (CellRange × CellFormat) :=
  [(⟨1, 1, 1, 1⟩, HEADER_MAIN),
   (⟨1, 2, 1, 3⟩, METADATA_LABEL),
   (⟨2, 2, 2, 3⟩, METADATA_VALUE),
   (⟨2, 2, 2, 2⟩, (FORMATS "DATE_TIME").getD {}),
   (⟨2, 3, 2, 3⟩, (FORMATS "DURATION").getD {})]

/-- The full cell-content map produced by one snapshot publish of the
(already stripped) dataset, starting from the cleared sheet. -/
def snapCells (cfg : TabConfig) (df : DataFrame) (timeChile : String) :
    Nat × Nat → Option CellVal :=
  applyCellWrites (fun _ => none) (metaCellWrites cfg timeChile ++ tableWrites 6 df)

/-- Every format write issued by one snapshot publish of the (already
stripped) dataset, in issue order: metadata formats, then per-column
number formats, then the base/header visual styles. -/
def snapFmtWrites (cfg : TabConfig) (df : DataFrame) :
    List (CellRange × CellFormat) :=
  metaFmtWrites ++ dataFormatBatch df cfg.columns 6 ++ visualStylesBatch df 6

/-- State of a history worksheet: the rows of its populated table, top
to bottom (blank trailing grid rows are not represented; `append_rows`
appends after the table's last row). -/
structure HistSheet where
  rows : List (List CellVal)
deriving DecidableEq, Repr

/-- Whether a cell holds no content, for the purpose of
`ws.get_values("A1")` returning an empty list. -/
def cellBlank : Option CellVal → Bool
  | none => true
  | some (.val (.str "")) => true
  | some (.val .null) => true
  | some _ => false

/-- Emptiness test of cell A1 performed by `append_history`
(`check_header = ws.get_values("A1")`, `needs_header = not check_header
or not check_header[0]`): true exactly when A1 holds no content. -/
def a1Empty (st : HistSheet) : Bool :=
  match st.rows with
  | [] => true
  | r :: _ =>
    match r with
    | [] => true
    | c :: _ => cellBlank (some c)

/-- The r-th row of the dataset (across columns). -/
def dfRow (df : DataFrame) (r : Nat) : List Val :=
  df.cols.map (fun c => c.vals.getD r .null)

/-- History payload conversion of one value of a column with the given
dtype: datetime values are rendered to text with
`dt.strftime('%Y-%m-%d %H:%M:%S')`, and missing values become an
explicit null (`df.where(pd.notnull(df), None)`). -/
def histConvert (d : Dtype) (v : Val) : Val :=
  match d, v with
  | .datetime, .dt s => .str s
  | _, v => v

/-- The `append_rows` payload of `append_history`: one list per dataset
row, datetime columns converted to text and missing values to null. -/
def histPayload (df : DataFrame) : List (List CellVal) :=
  (List.range df.nrows).map (fun r =>
    df.cols.map (fun c => CellVal.val (histConvert c.dtype (c.vals.getD r .null))))

/-- The header-plus-data block written by `set_with_dataframe(ws, df,
row=1, include_column_header=True, resize=True)`: the resize truncates
the grid to exactly the block's dimensions, so the sheet's rows become
the header row of display column names followed by the data rows. -/
def histHeaderBlock (df : DataFrame) : List (List CellVal) :=
  (df.cols.map (fun c => CellVal.val (.str c.name)))
    :: (List.range df.nrows).map (fun r =>
        (dfRow df r).map CellVal.val)

/-- The effect of `SheetsService.append_history` on the history sheet:
no-op on an empty dataset or unset `history_tab`; a full header + data
write when cell A1 is empty; otherwise an append of the converted
payload after the existing last row. -/
def appendHistory (cfg : TabConfig) (df : DataFrame) (st : HistSheet) :
    HistSheet :=
  if df.isEmpty then st
  else
    match cfg.history_tab with
    | none => st
    | some _ =>
      if a1Empty st then ⟨histHeaderBlock df⟩
      else ⟨st.rows ++ histPayload df⟩

/-- Whether an entire row is empty of content (the spec's "first row is
empty" reading, as opposed to the source's A1-only check). -/
def rowAllBlank (row : List CellVal) : Bool :=
  row.all (fun c => cellBlank (some c))

/-- The spec's notion that the history sheet's first row is empty: no
first row, or a first row all of whose cells are blank. -/
def firstRowEmpty (st : HistSheet) : Bool :=
  match st.rows with
  | [] => true
  | r :: _ => rowAllBlank r

/-- Equality as used by the pandas value comparison `values[i] !=
values[start]` of `_merge_cells`: missing values (NaN/NaT) compare
unequal to everything, themselves included; other values compare by
ordinary equality. -/
def valEq : Val → Val → Bool
  | .null, _ => false
  | _, .null => false
  | a, b => decide (a = b)

/-- One merged region emitted by `_merge_cells`: 1-based first and last
sheet row and the 1-based column index. The source immediately formats
each such region with `verticalAlignment: MIDDLE`, so these regions are
exactly the vertically-centered merges. -/
structure MergeReg where
  startRow : Nat
  endRow : Nat
  col : Nat
deriving DecidableEq, Repr

/-- The scanning loop of `src2`'s `SheetsService._merge_cells`: `i` is
the index of the next value, `start` the index where the current run
began, and `cur` the run's first value (`values[start]`). On a value
change the finished run is merged when longer than one row
(`i - start > 1`), spanning sheet rows `start + off` through
`i + off - 1`; at end of data the final run is flushed the same way. -/
def mergeGo (off col : Nat) : List Val → Nat → Nat → Val → List MergeReg
  | [], i, start, _ =>
    if i - start > 1 then [⟨start + off, i + off - 1, col⟩] else []
  | v :: rest, i, start, cur =>
    if valEq v cur then mergeGo off col rest (i + 1) start cur
    else
      (if i - start > 1 then [⟨start + off, i + off - 1, col⟩] else [])
        ++ mergeGo off col rest (i + 1) i v

/-- The merge regions created by `_merge_cells` over one column's value
list, with `off` the sheet row of the first data row
(`data_offset = start_row_idx + 1`). -/
def mergeRuns (values : List Val) (off col : Nat) : List MergeReg :=
  match values with
  | [] => []
  | v :: rest => mergeGo off col rest 1 0 v

/-- The full `src2` `SheetsService._merge_cells` operation on a dataset:
no-op when the configured column name is absent, otherwise the run
merges of that column's values at column `get_loc(col_name) + 1`,
with the data starting one row below the table header. -/
def mergeCellsRegions (df : DataFrame) (colName : String) (startRowIdx : Nat) :
    List MergeReg :=
  if (df.cols.map Column.name).contains colName then
    let colIdx := (df.cols.map Column.name).indexOf colName + 1
    let values := ((df.cols.find? (fun c => c.name == colName)).map Column.vals).getD []
    mergeRuns values (startRowIdx + 1) colIdx
  else []

/-- Outcome of one remote batch-update call. -/
inductive ApiResult where
  | ok
  | err (msg : String)
deriving DecidableEq, Repr

/-- Whether an API error message reports a rate-limit rejection
(`"429" in str(e)` in the source). -/
def has429 (msg : String) : Bool :=
  decide (List.IsInfix "429".toList msg.toList)

/-- One observable event of `DashboardBuilder._create_charts`: the
chart-creation batch call or the fixed pause before the retry. -/
inductive ChartEv where
  | chartBatch (sheetId : Nat)
  | pause (secs : Nat)
deriving DecidableEq, Repr

/-- The behaviour of `DashboardBuilder._create_charts`, with `r1` the
remote outcome of the first chart batch and `r2` that of the retry (if
issued): a rate-limited first attempt is retried exactly once after a
fixed 15-second pause, any other error propagates immediately, and the
only calls issued are chart batches on the dashboard sheet. -/
def createCharts (sheetId : Nat) (r1 r2 : ApiResult) :
    List ChartEv × ApiResult :=
  match r1 with
  | .ok => ([.chartBatch sheetId], .ok)
  | .err m =>
    if has429 m then
      ([.chartBatch sheetId, .pause 15, .chartBatch sheetId], r2)
    else
      ([.chartBatch sheetId], .err m)

/-- Number of chart-creation attempts in a trace. -/
def chartAttempts (tr : List ChartEv) : Nat :=
  tr.countP (fun e => match e with | .chartBatch _ => true | _ => false)

/-! Theorems. -/

/-- Helper: `valEq` only ever identifies equal values. -/
theorem valEq_eq {a b : Val} (h : valEq a b = true) : a = b := by
  cases a <;> cases b <;> simp_all [valEq]

/-- Helper: `getLast?` of a cons, expressed through `getD`. -/
theorem getLast?_cons_getD {α : Type} (a : α) (l : List α) :
    (a :: l).getLast? = some (l.getLast?.getD a) := by
  induction l generalizing a with
  | nil => rfl
  | cons b l ih => rw [List.getLast?_cons_cons, ih b]; simp [ih]

/-- Helper: the scan absorbs a block of repeated run values without
emitting anything, only advancing the index. -/
theorem mergeGo_absorb (off col : Nat) (v : Val) (hv : valEq v v = true) :
    ∀ (m : Nat) (rest : List Val) (i start : Nat),
      mergeGo off col (List.replicate m v ++ rest) i start v
        = mergeGo off col rest (i + m) start v := by
  intro m
  induction m with
  | zero => intro rest i start; simp
  | succ n ih =>
    intro rest i start
    have hrw : List.replicate (n + 1) v ++ rest = v :: (List.replicate n v ++ rest) := by
      simp [List.replicate_succ]
    rw [hrw]
    show (if valEq v v then mergeGo off col (List.replicate n v ++ rest) (i + 1) start v
          else _) = _
    rw [if_pos hv, ih rest (i + 1) start]
    have : i + 1 + n = i + (n + 1) := by omega
    rw [this]

/-- Helper: the scan distributes over a run boundary — when the next
value differs from the last value of the prefix (or from the current
run value if the prefix is empty), the scan of the concatenation is the
scan of the prefix followed by a fresh scan starting at the boundary. -/
theorem mergeGo_append (off col : Nat) :
    ∀ (xs : List Val) (i start : Nat) (cur u : Val) (ys : List Val),
      valEq u (xs.getLast?.getD cur) = false →
      mergeGo off col (xs ++ u :: ys) i start cur
        = mergeGo off col xs i start cur
          ++ mergeGo off col ys (i + xs.length + 1) (i + xs.length) u := by
  intro xs
  induction xs with
  | nil =>
    intro i start cur u ys h
    simp only [Option.getD, List.getLast?] at h
    simp [mergeGo, h]
  | cons x xs ih =>
    intro i start cur u ys h
    rw [getLast?_cons_getD] at h
    simp only [Option.getD_some] at h
    by_cases hx : valEq x cur = true
    · have hxc : x = cur := valEq_eq hx
      subst hxc
      simp only [List.cons_append, mergeGo, hx, if_true, List.append_eq]
      rw [ih (i + 1) start x u ys h]
      simp only [List.length_cons]
      have e : i + 1 + xs.length = i + (xs.length + 1) := by omega
      rw [e]
    · have hx' : valEq x cur = false := by simpa using hx
      simp only [List.cons_append, mergeGo, hx', Bool.false_eq_true, if_false, List.append_eq]
      rw [ih (i + 1) i x u ys h]
      simp only [List.length_cons]
      have e : i + 1 + xs.length = i + (xs.length + 1) := by omega
      rw [e, ← List.append_assoc]

/-- Helper: every region the scan emits starts at or after the current
run's start row. -/
theorem mergeGo_start_le (off col : Nat) :
    ∀ (rest : List Val) (i start : Nat) (cur : Val), start ≤ i →
      ∀ reg ∈ mergeGo off col rest i start cur, start + off ≤ reg.startRow := by
  intro rest
  induction rest with
  | nil =>
    intro i start cur _ reg hreg
    simp only [mergeGo] at hreg
    split at hreg
    · simp at hreg; subst hreg; simp
    · simp at hreg
  | cons x rest ih =>
    intro i start cur hsi reg hreg
    simp only [mergeGo] at hreg
    by_cases hx : valEq x cur = true
    · rw [if_pos hx] at hreg
      exact ih (i + 1) start cur (by omega) reg hreg
    · rw [if_neg (by simpa using hx), List.mem_append] at hreg
      rcases hreg with hreg | hreg
      · split at hreg
        · simp at hreg; subst hreg; simp
        · simp at hreg
      · have := ih (i + 1) i x (by omega) reg hreg
        omega

/-- Helper: every region the scan emits ends strictly before the row
following the remaining data. -/
theorem mergeGo_end_lt (off col : Nat) :
    ∀ (rest : List Val) (i start : Nat) (cur : Val),
      ∀ reg ∈ mergeGo off col rest i start cur,
        reg.endRow < off + i + rest.length := by
  intro rest
  induction rest with
  | nil =>
    intro i start cur reg hreg
    simp only [mergeGo] at hreg
    split at hreg
    · rename_i hgt
      simp at hreg; subst hreg
      simp only [List.length_nil]
      omega
    · simp at hreg
  | cons x rest ih =>
    intro i start cur reg hreg
    simp only [mergeGo] at hreg
    by_cases hx : valEq x cur = true
    · rw [if_pos hx] at hreg
      have := ih (i + 1) start cur reg hreg
      simp only [List.length_cons]
      omega
    · rw [if_neg (by simpa using hx), List.mem_append] at hreg
      rcases hreg with hreg | hreg
      · split at hreg
        · rename_i hgt
          simp at hreg; subst hreg
          simp only [List.length_cons]
          omega
        · simp at hreg
      · have := ih (i + 1) i x reg hreg
        simp only [List.length_cons]
        omega

/-- Helper: after the scanner has consumed exactly the maximal run (its
start at `P`, the index now at `P + k`, no following value equal to the
run value), the regions overlapping the run's rows are exactly the
single region of the run when `k ≥ 2`, and none when `k = 1`. -/
theorem mergeGo_run_filter (off col P k : Nat) (v : Val) (post : List Val)
    (hk : 1 ≤ k)
    (hpost : post.head?.all (fun u => !valEq u v) = true) :
    (mergeGo off col post (P + k) P v).filter
        (fun r => decide (off + P ≤ r.endRow) &&
                  decide (r.startRow ≤ off + P + k - 1))
      = if 2 ≤ k then [⟨off + P, off + P + k - 1, col⟩] else [] := by
  have hregion :
      (if P + k - P > 1 then
          [(⟨P + off, P + k + off - 1, col⟩ : MergeReg)] else []).filter
        (fun r => decide (off + P ≤ r.endRow) &&
                  decide (r.startRow ≤ off + P + k - 1))
      = if 2 ≤ k then [⟨off + P, off + P + k - 1, col⟩] else [] := by
    by_cases h2 : 2 ≤ k
    · rw [if_pos (by omega : P + k - P > 1), if_pos h2]
      have hmk : (⟨P + off, P + k + off - 1, col⟩ : MergeReg)
          = ⟨off + P, off + P + k - 1, col⟩ := by
        simp only [MergeReg.mk.injEq, and_true]
        omega
      rw [hmk]
      have hp : off + P ≤ off + P + k - 1 := by omega
      simp [hp]
    · rw [if_neg (by omega), if_neg h2]
      simp
  cases post with
  | nil =>
    simp only [mergeGo]
    exact hregion
  | cons u post' =>
    have hu : valEq u v = false := by simpa using hpost
    simp only [mergeGo, hu, Bool.false_eq_true, if_false]
    rw [List.filter_append, hregion]
    have hrest : (mergeGo off col post' (P + k + 1) (P + k) u).filter
        (fun r => decide (off + P ≤ r.endRow) &&
                  decide (r.startRow ≤ off + P + k - 1)) = [] := by
      rw [List.filter_eq_nil_iff]
      intro reg hreg
      have := mergeGo_start_le off col post' (P + k + 1) (P + k) u (by omega) reg hreg
      simp only [Bool.and_eq_true, decide_eq_true_eq, not_and]
      intro _
      omega
    rw [hrest, List.append_nil]

/-- Helper: the maximal-run characterization of `_merge_cells`, over one
column's value list: within the sheet rows of a maximal run of `k`
consecutive equal values, the scan produces exactly the single merge
region of those rows when `k ≥ 2`, and no region at all when `k = 1`. -/
theorem merge_run_exact (pre post : List Val) (v : Val) (k off col : Nat)
    (hv : valEq v v = true) (hk : 1 ≤ k)
    (hpre : pre.getLast?.all (fun w => !valEq v w) = true)
    (hpost : post.head?.all (fun u => !valEq u v) = true) :
    (mergeRuns (pre ++ (List.replicate k v ++ post)) off col).filter
        (fun r => decide (off + pre.length ≤ r.endRow) &&
                  decide (r.startRow ≤ off + pre.length + k - 1))
      = if 2 ≤ k then
          [⟨off + pre.length, off + pre.length + k - 1, col⟩] else [] := by
  obtain ⟨k', rfl⟩ : ∃ k', k = k' + 1 := ⟨k - 1, by omega⟩
  cases pre with
  | nil =>
    simp only [List.nil_append, List.replicate_succ, List.cons_append, mergeRuns]
    rw [mergeGo_absorb off col v hv k' post 1 0]
    have e : 1 + k' = 0 + (k' + 1) := by omega
    rw [e]
    have := mergeGo_run_filter off col 0 (k' + 1) v post (by omega) hpost
    simpa using this
  | cons p pre' =>
    have hlast : valEq v (pre'.getLast?.getD p) = false := by
      rw [getLast?_cons_getD] at hpre
      simpa using hpre
    have hsplit : (p :: pre') ++ (List.replicate (k' + 1) v ++ post)
        = p :: (pre' ++ (v :: (List.replicate k' v ++ post))) := by
      simp [List.replicate_succ]
    rw [hsplit]
    simp only [mergeRuns]
    rw [mergeGo_append off col pre' 1 0 p v (List.replicate k' v ++ post) hlast]
    rw [mergeGo_absorb off col v hv k' post (1 + pre'.length + 1) (1 + pre'.length)]
    have e1 : 1 + pre'.length + 1 + k' = (pre'.length + 1) + (k' + 1) := by omega
    have e2 : 1 + pre'.length = pre'.length + 1 := by omega
    rw [e1, e2]
    rw [List.filter_append]
    have hA : (mergeGo off col pre' 1 0 p).filter
        (fun r => decide (off + (p :: pre').length ≤ r.endRow) &&
                  decide (r.startRow ≤ off + (p :: pre').length + (k' + 1) - 1)) = [] := by
      rw [List.filter_eq_nil_iff]
      intro reg hreg
      have := mergeGo_end_lt off col pre' 1 0 p reg hreg
      simp only [Bool.and_eq_true, decide_eq_true_eq, not_and, List.length_cons]
      intro hle
      omega
    rw [hA, List.nil_append]
    have := mergeGo_run_filter off col (pre'.length + 1) (k' + 1) v post (by omega) hpost
    simpa using this

/-- C3: for a dataset whose configured merge column contains a maximal
run of `k` identical adjacent values (preceded and followed by a
boundary or a different value), the snapshot publisher's
`_merge_cells` creates, over that run's sheet rows, exactly one merge
region when `k ≥ 2` — of height `k`, in the merge column
(`get_loc + 1`), starting at sheet row `start_row + 1 + pre.length` —
and no merge region when `k = 1`.  Each emitted region is immediately
formatted `verticalAlignment: MIDDLE` by the same loop. -/
theorem merge_column_runs (df : DataFrame) (colName : String)
    (startRowIdx j : Nat) (col : Column) (pre post : List Val) (v : Val)
    (k : Nat)
    (hmem : (df.cols.map Column.name).contains colName = true)
    (hfind : df.cols.find? (fun c => c.name == colName) = some col)
    (hidx : (df.cols.map Column.name).indexOf colName = j)
    (hvals : col.vals = pre ++ (List.replicate k v ++ post))
    (hv : valEq v v = true) (hk : 1 ≤ k)
    (hpre : pre.getLast?.all (fun w => !valEq v w) = true)
    (hpost : post.head?.all (fun u => !valEq u v) = true) :
    (mergeCellsRegions df colName startRowIdx).filter
        (fun r => decide (startRowIdx + 1 + pre.length ≤ r.endRow) &&
                  decide (r.startRow ≤ startRowIdx + 1 + pre.length + k - 1))
      = if 2 ≤ k then
          [⟨startRowIdx + 1 + pre.length,
            startRowIdx + 1 + pre.length + k - 1, j + 1⟩] else [] := by
  unfold mergeCellsRegions
  rw [if_pos hmem, hidx, hfind]
  simp only [Option.map_some', Option.getD_some]
  rw [hvals]
  exact merge_run_exact pre post v k (startRowIdx + 1) (j + 1) hv hk hpre hpost

/-- Witness for C3 at the spec's end-to-end dataset
`{Servidor: [S1, S1, S2]}`: the run `S1, S1` (k = 2) yields exactly the
single region spanning sheet rows 7–8 of column 1, and the run `S2`
(k = 1, checked via the same theorem at `pre = [S1, S1]`) yields none. -/
theorem merge_column_runs_witness :
    ((DataFrame.cols ⟨[⟨"Servidor", .obj, [.str "S1", .str "S1", .str "S2"]⟩]⟩).map
        Column.name).contains "Servidor" = true ∧
      (mergeCellsRegions ⟨[⟨"Servidor", .obj, [.str "S1", .str "S1", .str "S2"]⟩]⟩
          "Servidor" 6).filter
        (fun r => decide (6 + 1 + (0 : Nat) ≤ r.endRow) &&
                  decide (r.startRow ≤ 6 + 1 + 0 + 2 - 1))
        = [⟨6 + 1 + 0, 6 + 1 + 0 + 2 - 1, 0 + 1⟩] ∧
      (mergeCellsRegions ⟨[⟨"Servidor", .obj, [.str "S1", .str "S1", .str "S2"]⟩]⟩
          "Servidor" 6).filter
        (fun r => decide (6 + 1 + (2 : Nat) ≤ r.endRow) &&
                  decide (r.startRow ≤ 6 + 1 + 2 + 1 - 1))
        = [] := by
  refine ⟨rfl, ?_, ?_⟩
  · have h := merge_column_runs ⟨[⟨"Servidor", .obj, [.str "S1", .str "S1", .str "S2"]⟩]⟩
      "Servidor" 6 0 ⟨"Servidor", .obj, [.str "S1", .str "S1", .str "S2"]⟩
      [] [.str "S2"] (.str "S1") 2 rfl rfl rfl rfl (by decide) (by decide)
      (by decide) (by decide)
    simpa using h
  · have h := merge_column_runs ⟨[⟨"Servidor", .obj, [.str "S1", .str "S1", .str "S2"]⟩]⟩
      "Servidor" 6 0 ⟨"Servidor", .obj, [.str "S1", .str "S1", .str "S2"]⟩
      [.str "S1", .str "S1"] [] (.str "S2") 1 rfl rfl rfl rfl (by decide) (by decide)
      (by decide) (by decide)
    simpa using h

/-- Helper: call application distributes over concatenation. -/
theorem applyCalls_append (s : Sheet) (l1 l2 : List SheetCall) :
    applyCalls s (l1 ++ l2) = applyCalls (applyCalls s l1) l2 :=
  List.foldl_append _ _ _ _

/-- Helper: cell-write application distributes over concatenation. -/
theorem applyCellWrites_append (f : Nat × Nat → Option CellVal)
    (l1 l2 : List ((Nat × Nat) × CellVal)) :
    applyCellWrites f (l1 ++ l2) = applyCellWrites (applyCellWrites f l1) l2 :=
  List.foldl_append _ _ _ _

/-- Helper: format-batch application distributes over concatenation. -/
theorem applyFmtList_append (f : Nat × Nat → CellFormat)
    (l1 l2 : List (CellRange × CellFormat)) :
    applyFmtList f (l1 ++ l2) = applyFmtList (applyFmtList f l1) l2 :=
  List.foldl_append _ _ _ _

/-- Helper: a mapped batch of format calls only folds the batch into the
format map. -/
theorem applyCalls_formatMap (s : Sheet) (W : List (CellRange × CellFormat)) :
    applyCalls s (W.map (fun e => SheetCall.formatRange e.1 e.2))
      = { s with formats := applyFmtList s.formats W } := by
  induction W generalizing s with
  | nil => simp [applyCalls, applyFmtList]
  | cons w W ih =>
    simp only [List.map_cons]
    show applyCalls (applyCall s (.formatRange w.1 w.2)) _ = _
    rw [ih]
    simp [applyCall, applyFmtList]

/-- Helper: a mapped batch of rule additions at index 0 prepends the
batch in reverse order. -/
theorem applyCalls_addRulesMap (s : Sheet) (R : List CondRule) :
    applyCalls s (R.map (fun r => SheetCall.addCondRule r 0))
      = { s with condRules := R.reverse ++ s.condRules } := by
  induction R generalizing s with
  | nil => simp [applyCalls]
  | cons r R ih =>
    simp only [List.map_cons]
    show applyCalls (applyCall s (.addCondRule r 0)) _ = _
    rw [ih]
    simp [applyCall]

/-- Helper: full state effect of the per-rule deletions. -/
theorem applyCalls_deleteRuleCalls_state (c : Nat) (s : Sheet) :
    applyCalls s (deleteRuleCalls c)
      = { s with condRules := s.condRules.drop c } := by
  induction c generalizing s with
  | zero => simp [deleteRuleCalls, applyCalls]
  | succ n ih =>
    have hsplit : deleteRuleCalls (n + 1)
        = deleteRuleCalls n ++ [SheetCall.deleteCondRule 0] := by
      simp [deleteRuleCalls, List.range_succ]
    rw [hsplit, applyCalls_append, ih]
    show applyCall _ (SheetCall.deleteCondRule 0) = _
    have herase : ∀ l : List CondRule, l.eraseIdx 0 = l.tail := by
      intro l; cases l <;> rfl
    simp [applyCall, herase, List.tail_drop]

/-- Helper: full state effect of `_clean_sheet_metadata` — values
cleared, merges inside `A1:Z{rowCount}` removed, all reported rules
dropped. -/
theorem applyCalls_clean (s : Sheet) (rc c : Nat) :
    applyCalls s (cleanSheetCalls rc c)
      = { s with cells := fun _ => none,
                 merges := s.merges.filter (fun m => !(inUnmergeRange m rc)),
                 condRules := s.condRules.drop c } := by
  show applyCalls (applyCall (applyCall s .clear) (.unmergeAll ⟨1, 1, 26, rc⟩))
      (deleteRuleCalls c) = _
  rw [applyCalls_deleteRuleCalls_state]
  simp [applyCall, inUnmergeRange]

/-- Helper: full state effect of the metadata block, table write and
resize of `update_snapshot` (the eleven calls between cleanup and the
batched formats). -/
theorem applyCalls_metaBlock (s : Sheet) (cfg : TabConfig) (df : DataFrame)
    (t1 : String) :
    applyCalls s
      [ .mergeCells ⟨1, 1, 2, 1⟩,
        .writeCells [((1, 1), .val (.str (cfg.title.getD "Reporte")))],
        .formatRange ⟨1, 1, 1, 1⟩ HEADER_MAIN,
        .writeCells [((2, 1), .val (.str "Última actualización (Chile)")),
                     ((3, 1), .val (.str "Tiempo transcurrido:"))],
        .writeCells [((2, 2), .val (.str t1))],
        .writeCells [((3, 2), .formula "=NOW()-B2")],
        .formatRange ⟨1, 2, 1, 3⟩ METADATA_LABEL,
        .formatRange ⟨2, 2, 2, 3⟩ METADATA_VALUE,
        .formatRange ⟨2, 2, 2, 2⟩ ((FORMATS "DATE_TIME").getD {}),
        .formatRange ⟨2, 3, 2, 3⟩ ((FORMATS "DURATION").getD {}),
        .setTable 6 df ]
      = { s with
            cells := applyCellWrites s.cells (metaCellWrites cfg t1 ++ tableWrites 6 df),
            formats := applyFmtList s.formats metaFmtWrites,
            merges := s.merges ++ [⟨1, 1, 2, 1⟩],
            nrows := 6 + df.nrows,
            ncols := df.cols.length } := by
  simp [applyCalls, applyCall, applyCellWrites, applyFmtList,
    metaCellWrites, metaFmtWrites]

/-- Helper: the normal form of one snapshot publish — each component of
the resulting sheet state as an explicit function of the layout, the
stripped dataset, the timestamp and the previous state. -/
theorem updateSnapshot_spec (cfg : TabConfig) (df : DataFrame)
    (t1 t2 : String) (s : Sheet) (h : df.isEmpty = false) :
    updateSnapshot cfg df t1 t2 s =
      { sheetId := s.sheetId,
        nrows := 6 + (stripDF df).nrows,
        ncols := (stripDF df).cols.length,
        cells := snapCells cfg (stripDF df) t1,
        formats := applyFmtList s.formats (snapFmtWrites cfg (stripDF df)),
        merges := s.merges.filter (fun m => !(inUnmergeRange m s.nrows))
          ++ [⟨1, 1, 2, 1⟩],
        condRules := (condRules (stripDF df) cfg.columns 6 s.sheetId).reverse } := by
  rw [updateSnapshot, updateSnapshotCalls, if_neg (by simp [h])]
  rw [applyCalls_append, applyCalls_append, applyCalls_append, applyCalls_append]
  rw [applyCalls_clean, applyCalls_metaBlock, applyCalls_formatMap,
    applyCalls_formatMap, applyCalls_addRulesMap]
  simp [snapCells, snapFmtWrites, applyFmtList_append, List.drop_length]

/-- Helper: membership characterization of the `_apply_data_formats`
batch entries produced from column position `i` onward. -/
theorem dataFormatGo_mem (columns : List (String × ColumnConfig))
    (startRow nrows : Nat) :
    ∀ (cols : List Column) (i : Nat) (e : CellRange × CellFormat),
      e ∈ dataFormatGo columns startRow nrows cols i ↔
      ∃ j col conf fmt, cols.get? j = some col ∧
        finalNameMap columns col.name = some conf ∧
        FORMATS (conf.format.getD "TEXT") = some fmt ∧
        e = (⟨i + j + 1, startRow + 1, i + j + 1, startRow + 1 + nrows⟩, fmt) := by
  intro cols
  induction cols with
  | nil => intro i e; simp [dataFormatGo]
  | cons c rest ih =>
    intro i e
    constructor
    · intro he
      rcases hm : finalNameMap columns c.name with _ | conf
      · simp only [dataFormatGo, hm] at he
        obtain ⟨j, col, conf, fmt, hj, hconf, hfmt, hee⟩ := (ih (i + 1) e).mp he
        refine ⟨j + 1, col, conf, fmt, by simpa using hj, hconf, hfmt, ?_⟩
        have : i + 1 + j + 1 = i + (j + 1) + 1 := by omega
        rw [← this]; exact hee
      · rcases hf : FORMATS (conf.format.getD "TEXT") with _ | fmt
        · simp only [dataFormatGo, hm, hf] at he
          obtain ⟨j, col, conf', fmt, hj, hconf, hfmt, hee⟩ := (ih (i + 1) e).mp he
          refine ⟨j + 1, col, conf', fmt, by simpa using hj, hconf, hfmt, ?_⟩
          have : i + 1 + j + 1 = i + (j + 1) + 1 := by omega
          rw [← this]; exact hee
        · simp only [dataFormatGo, hm, hf] at he
          rcases List.mem_cons.mp he with hee | he'
          · exact ⟨0, c, conf, fmt, rfl, hm, hf, by simpa using hee⟩
          · obtain ⟨j, col, conf', fmt', hj, hconf, hfmt, hee⟩ := (ih (i + 1) e).mp he'
            refine ⟨j + 1, col, conf', fmt', by simpa using hj, hconf, hfmt, ?_⟩
            have : i + 1 + j + 1 = i + (j + 1) + 1 := by omega
            rw [← this]; exact hee
    · rintro ⟨j, col, conf, fmt, hj, hconf, hfmt, rfl⟩
      cases j with
      | zero =>
        have hc : col = c := by
          have := hj
          simp at this
          exact this.symm
        subst hc
        simp only [dataFormatGo, hconf, hfmt]
        simp
      | succ j =>
        have hj' : rest.get? j = some col := by simpa using hj
        have hmem : (⟨i + (j + 1) + 1, startRow + 1, i + (j + 1) + 1,
            startRow + 1 + nrows⟩, fmt) ∈ dataFormatGo columns startRow nrows rest (i + 1) := by
          have : i + (j + 1) + 1 = i + 1 + j + 1 := by omega
          rw [this]
          exact (ih (i + 1) _).mpr ⟨j, col, conf, fmt, hj', hconf, hfmt, rfl⟩
        rcases hm : finalNameMap columns c.name with _ | conf'
        · simp only [dataFormatGo, hm]; exact hmem
        · rcases hf : FORMATS (conf'.format.getD "TEXT") with _ | fmt'
          · simp only [dataFormatGo, hm, hf]; exact hmem
          · simp only [dataFormatGo, hm, hf]; exact List.mem_cons_of_mem _ hmem

/-- C7 (amended): `_apply_data_formats` covers the cell `(r, c)` exactly
when column `c = i + 1` of the dataset has a registered format kind and
`start_row + 1 ≤ r ≤ start_row + 1 + n` — that is, the `n` data rows of
that column plus the single extra row immediately below the last data
row — and in particular it never covers the header row `start_row`. -/
theorem data_format_exact (df : DataFrame)
    (columns : List (String × ColumnConfig)) (startRow r c : Nat) :
    (coveredByBatch (dataFormatBatch df columns startRow) r c = true ↔
      ∃ i col conf fmt, df.cols.get? i = some col ∧
        finalNameMap columns col.name = some conf ∧
        FORMATS (conf.format.getD "TEXT") = some fmt ∧
        c = i + 1 ∧ startRow + 1 ≤ r ∧ r ≤ startRow + 1 + df.nrows) ∧
    coveredByBatch (dataFormatBatch df columns startRow) startRow c = false := by
  have hiff : ∀ r', coveredByBatch (dataFormatBatch df columns startRow) r' c = true ↔
      ∃ i col conf fmt, df.cols.get? i = some col ∧
        finalNameMap columns col.name = some conf ∧
        FORMATS (conf.format.getD "TEXT") = some fmt ∧
        c = i + 1 ∧ startRow + 1 ≤ r' ∧ r' ≤ startRow + 1 + df.nrows := by
    intro r'
    rw [coveredByBatch, List.any_eq_true]
    constructor
    · rintro ⟨e, he, hcontains⟩
      obtain ⟨j, col, conf, fmt, hj, hconf, hfmt, rfl⟩ :=
        (dataFormatGo_mem columns startRow df.nrows df.cols 0 e).mp he
      simp only [CellRange.containsCell, Bool.and_eq_true, decide_eq_true_eq] at hcontains
      exact ⟨j, col, conf, fmt, hj, hconf, hfmt, by omega, by omega, by omega⟩
    · rintro ⟨i, col, conf, fmt, hi, hconf, hfmt, rfl, hr1, hr2⟩
      refine ⟨(⟨0 + i + 1, startRow + 1, 0 + i + 1, startRow + 1 + df.nrows⟩, fmt),
        (dataFormatGo_mem columns startRow df.nrows df.cols 0 _).mpr
          ⟨i, col, conf, fmt, hi, hconf, hfmt, rfl⟩, ?_⟩
      simp only [CellRange.containsCell, Bool.and_eq_true, decide_eq_true_eq]
      refine ⟨⟨⟨by omega, by omega⟩, by omega⟩, by omega⟩
  refine ⟨hiff r, ?_⟩
  cases hcov : coveredByBatch (dataFormatBatch df columns startRow) startRow c with
  | false => rfl
  | true =>
    obtain ⟨i, col, conf, fmt, _, _, _, _, hr1, _⟩ := (hiff startRow).mp hcov
    omega

/-- C7 (counterexample to the claim as stated): on a one-row dataset the
number-format range of the configured column covers sheet row 8,
strictly below the last data row `start_row + n = 7` — the source
builds the range `{col}{start+1}:{col}{start+1+len(df)}`, one row too
long. -/
theorem data_format_below_last_row :
    coveredByBatch
        (dataFormatBatch ⟨[⟨"CPU", .numeric, [.num 10]⟩]⟩
          [("cpu", ⟨"CPU", some "NUMBER", none⟩)] 6) 8 1 = true ∧
      6 + DataFrame.nrows ⟨[⟨"CPU", .numeric, [.num 10]⟩]⟩ = 7 ∧ 7 < 8 := by
  decide

/-- Helper: `Option.orElse` chains associate. -/
theorem orElse_assoc' {α : Type} (x y z : Option α) :
    (x.orElse fun _ => y).orElse (fun _ => z)
      = x.orElse (fun _ => y.orElse fun _ => z) := by
  cases x <;> rfl

/-- Helper: `orElse` with itself collapses. -/
theorem orElse_self' {α : Type} (x : Option α) :
    x.orElse (fun _ => x) = x := by
  cases x <;> rfl

/-- Helper: `orElse` with `none` on the right is the identity. -/
theorem orElse_none' {α : Type} (x : Option α) :
    x.orElse (fun _ => none) = x := by
  cases x <;> rfl

/-- Helper: merging the empty patch changes nothing. -/
theorem mergeFmt_empty_right (x : CellFormat) : mergeFmt x {} = x := by
  cases x
  simp [mergeFmt]

/-- Helper: merging a patch into the empty format gives the patch. -/
theorem mergeFmt_empty_left (x : CellFormat) : mergeFmt {} x = x := by
  cases x
  simp [mergeFmt, orElse_none']

/-- Helper: format merging is associative. -/
theorem mergeFmt_assoc (a b c : CellFormat) :
    mergeFmt (mergeFmt a b) c = mergeFmt a (mergeFmt b c) := by
  simp [mergeFmt, orElse_assoc']

/-- Helper: merging a format with itself changes nothing. -/
theorem mergeFmt_self (x : CellFormat) : mergeFmt x x = x := by
  cases x
  simp [mergeFmt, orElse_self']

/-- Pointwise format transition of one write at a fixed cell. -/
def fmtStep (p : Nat × Nat) (g : CellFormat) (w : CellRange × CellFormat) :
    CellFormat :=
  if w.1.containsCell p.1 p.2 then mergeFmt g w.2 else g

/-- Helper: the format map after a batch, evaluated at one cell, is the
pointwise fold of the covering writes. -/
theorem applyFmtList_apply (f : Nat × Nat → CellFormat)
    (W : List (CellRange × CellFormat)) (p : Nat × Nat) :
    applyFmtList f W p = W.foldl (fmtStep p) (f p) := by
  induction W generalizing f with
  | nil => rfl
  | cons w W ih =>
    show applyFmtList (applyFmtWrite f w) W p = _
    rw [ih]
    rfl

/-- Helper: the pointwise fold of a write batch equals merging the
batch's combined patch into the starting format. -/
theorem foldl_fmtStep_patch (p : Nat × Nat)
    (W : List (CellRange × CellFormat)) :
    ∀ g, W.foldl (fmtStep p) g = mergeFmt g (W.foldl (fmtStep p) {}) := by
  induction W with
  | nil => intro g; exact (mergeFmt_empty_right g).symm
  | cons w W ih =>
    intro g
    show W.foldl (fmtStep p) (fmtStep p g w)
        = mergeFmt g (W.foldl (fmtStep p) (fmtStep p {} w))
    rw [ih (fmtStep p g w), ih (fmtStep p {} w), ← mergeFmt_assoc]
    congr 1
    unfold fmtStep
    split
    · rw [mergeFmt_empty_left]
    · exact (mergeFmt_empty_right g).symm

/-- Helper: re-applying the same format batch is absorbed — each cell's
format only depends on the last covering write of each field. -/
theorem applyFmtList_idem (f : Nat × Nat → CellFormat)
    (W : List (CellRange × CellFormat)) :
    applyFmtList (applyFmtList f W) W = applyFmtList f W := by
  funext p
  have h1 := applyFmtList_apply f W p
  calc applyFmtList (applyFmtList f W) W p
      = W.foldl (fmtStep p) (applyFmtList f W p) := applyFmtList_apply _ W p
    _ = W.foldl (fmtStep p) (W.foldl (fmtStep p) (f p)) := by rw [h1]
    _ = mergeFmt (W.foldl (fmtStep p) (f p)) (W.foldl (fmtStep p) {}) :=
        foldl_fmtStep_patch p W _
    _ = mergeFmt (mergeFmt (f p) (W.foldl (fmtStep p) {}))
          (W.foldl (fmtStep p) {}) := by rw [← foldl_fmtStep_patch p W (f p)]
    _ = mergeFmt (f p) (mergeFmt (W.foldl (fmtStep p) {})
          (W.foldl (fmtStep p) {})) := mergeFmt_assoc _ _ _
    _ = mergeFmt (f p) (W.foldl (fmtStep p) {}) := by rw [mergeFmt_self]
    _ = W.foldl (fmtStep p) (f p) := (foldl_fmtStep_patch p W (f p)).symm
    _ = applyFmtList f W p := h1.symm

/-- Helper: a merged region that lies outside columns A–Z (the only way
to survive one publish's unmerge while being inside the sheet's rows)
stays outside the unmerge rectangle of any later publish. -/
theorem inUnmergeRange_still_false (m : CellRange) (rc1 rc2 : Nat)
    (hwf1 : 1 ≤ m.colStart) (hwf2 : 1 ≤ m.rowStart) (hwf3 : m.rowEnd ≤ rc1)
    (h : inUnmergeRange m rc1 = false) : inUnmergeRange m rc2 = false := by
  by_cases hc : m.colEnd ≤ 26
  · have htrue : inUnmergeRange m rc1 = true := by
      simp only [inUnmergeRange, Bool.and_eq_true, decide_eq_true_eq]
      exact ⟨⟨⟨hwf1, hc⟩, hwf2⟩, hwf3⟩
    rw [htrue] at h
    cases h
  · cases hinu : inUnmergeRange m rc2 with
    | false => rfl
    | true =>
      simp only [inUnmergeRange, Bool.and_eq_true, decide_eq_true_eq] at hinu
      exact absurd hinu.1.1.2 hc

/-- C1: snapshot publish is idempotent. For every non-empty dataset and
layout, and every sheet state whose merged regions lie inside the grid
(positive coordinates, rows within the row count), running
`update_snapshot` twice with the same arguments yields exactly the
state produced by running it once — contents, formats, merges,
conditional rules and grid size all coincide. -/
theorem publish_idempotent (cfg : TabConfig) (df : DataFrame)
    (t1 t2 : String) (s : Sheet) (h : df.isEmpty = false)
    (hwf : ∀ m ∈ s.merges, 1 ≤ m.colStart ∧ 1 ≤ m.rowStart ∧ m.rowEnd ≤ s.nrows) :
    updateSnapshot cfg df t1 t2 (updateSnapshot cfg df t1 t2 s)
      = updateSnapshot cfg df t1 t2 s := by
  rw [updateSnapshot_spec cfg df t1 t2 s h, updateSnapshot_spec cfg df t1 t2 _ h]
  simp only [Sheet.mk.injEq]
  refine ⟨trivial, trivial, trivial, trivial, applyFmtList_idem _ _, ?_, trivial⟩
  rw [List.filter_append]
  have hA1B1 : ([(⟨1, 1, 2, 1⟩ : CellRange)].filter
      (fun m => !(inUnmergeRange m (6 + (stripDF df).nrows)))) = [] := by
    have : inUnmergeRange ⟨1, 1, 2, 1⟩ (6 + (stripDF df).nrows) = true := by
      simp only [inUnmergeRange, Bool.and_eq_true, decide_eq_true_eq]
      refine ⟨⟨⟨by omega, by omega⟩, by omega⟩, by omega⟩
    simp [this]
  rw [hA1B1, List.append_nil]
  have hkeep : (s.merges.filter (fun m => !(inUnmergeRange m s.nrows))).filter
        (fun m => !(inUnmergeRange m (6 + (stripDF df).nrows)))
      = s.merges.filter (fun m => !(inUnmergeRange m s.nrows)) := by
    rw [List.filter_eq_self]
    intro m hm
    rw [List.mem_filter] at hm
    obtain ⟨hms, hP⟩ := hm
    obtain ⟨hw1, hw2, hw3⟩ := hwf m hms
    have hfalse : inUnmergeRange m s.nrows = false := by
      cases hval : inUnmergeRange m s.nrows with
      | false => rfl
      | true => rw [hval] at hP; cases hP
    rw [inUnmergeRange_still_false m s.nrows (6 + (stripDF df).nrows)
      hw1 hw2 hw3 hfalse]
    rfl
  rw [hkeep]

/-- Witness for C1 at a concrete layout with a threshold column, a
two-row dataset and a sheet state carrying a leftover rule. -/
theorem publish_idempotent_witness :
    DataFrame.isEmpty ⟨[⟨"CPU", .numeric, [.num 10, .num 95]⟩]⟩ = false ∧
      (∀ m ∈ (Sheet.merges ⟨4, 50, 10, fun _ => none, fun _ => {},
          [], [⟨[], "TEXT_EQ", ["x"], ALERT_RED⟩]⟩),
        1 ≤ m.colStart ∧ 1 ≤ m.rowStart ∧ m.rowEnd ≤ 50) ∧
      updateSnapshot
          ⟨"Servers", some "Reporte Servidores", none,
            [("cpu", ⟨"CPU", some "NUMBER", some ⟨some ">", some "90", none, none⟩⟩)], none⟩
          ⟨[⟨"CPU", .numeric, [.num 10, .num 95]⟩]⟩ "2026-01-01 00:00:00" "t2"
          (updateSnapshot
            ⟨"Servers", some "Reporte Servidores", none,
              [("cpu", ⟨"CPU", some "NUMBER", some ⟨some ">", some "90", none, none⟩⟩)], none⟩
            ⟨[⟨"CPU", .numeric, [.num 10, .num 95]⟩]⟩ "2026-01-01 00:00:00" "t2"
            ⟨4, 50, 10, fun _ => none, fun _ => {},
              [], [⟨[], "TEXT_EQ", ["x"], ALERT_RED⟩]⟩)
        = updateSnapshot
            ⟨"Servers", some "Reporte Servidores", none,
              [("cpu", ⟨"CPU", some "NUMBER", some ⟨some ">", some "90", none, none⟩⟩)], none⟩
            ⟨[⟨"CPU", .numeric, [.num 10, .num 95]⟩]⟩ "2026-01-01 00:00:00" "t2"
            ⟨4, 50, 10, fun _ => none, fun _ => {},
              [], [⟨[], "TEXT_EQ", ["x"], ALERT_RED⟩]⟩ := by
  refine ⟨rfl, by simp, ?_⟩
  exact publish_idempotent _ _ _ _ _ rfl (by simp)

/-- Helper: a batch none of whose writes covers the cell leaves that
cell's format unchanged. -/
theorem foldl_fmtStep_of_no_cover (p : Nat × Nat)
    (W : List (CellRange × CellFormat))
    (h : ∀ w ∈ W, w.1.containsCell p.1 p.2 = false) :
    ∀ g, W.foldl (fmtStep p) g = g := by
  induction W with
  | nil => intro g; rfl
  | cons w W ih =>
    intro g
    show W.foldl (fmtStep p) (fmtStep p g w) = g
    have hw : fmtStep p g w = g := by
      unfold fmtStep
      rw [h w (List.mem_cons_self _ _)]
      simp
    rw [hw]
    exact ih (fun w' hw' => h w' (List.mem_cons_of_mem _ hw')) g

/-- C8: in every snapshot publish the base table style is issued over
the full table range (header row included) strictly before the header
style over the header row only — the visual-styles batch is literally
`[base over table, header over header]` with the header range contained
in the table range — and consequently, on every header cell of the
published sheet, the header style's background, text format and
alignment are the surviving (later) writes, while the base style
contributes only the fields the header style leaves unset (borders). -/
theorem header_style_overrides (cfg : TabConfig) (df : DataFrame)
    (t1 t2 : String) (s : Sheet) (c : Nat) (h : df.isEmpty = false)
    (hc1 : 1 ≤ c) (hc2 : c ≤ (stripDF df).cols.length) :
    (visualStylesBatch (stripDF df) 6
      = [(⟨1, 6, (stripDF df).cols.length, 6 + (stripDF df).nrows⟩, TABLE_BASE),
         (⟨1, 6, (stripDF df).cols.length, 6⟩, HEADER_BLUE)]) ∧
    (∀ r' c', (CellRange.mk 1 6 (stripDF df).cols.length 6).containsCell r' c' = true →
      (CellRange.mk 1 6 (stripDF df).cols.length
        (6 + (stripDF df).nrows)).containsCell r' c' = true) ∧
    ((updateSnapshot cfg df t1 t2 s).formats (6, c)).backgroundColor
        = HEADER_BLUE.backgroundColor ∧
    ((updateSnapshot cfg df t1 t2 s).formats (6, c)).textFormat
        = HEADER_BLUE.textFormat ∧
    ((updateSnapshot cfg df t1 t2 s).formats (6, c)).horizontalAlignment
        = HEADER_BLUE.horizontalAlignment ∧
    ((updateSnapshot cfg df t1 t2 s).formats (6, c)).borders
        = TABLE_BASE.borders := by
  have key : (updateSnapshot cfg df t1 t2 s).formats (6, c)
      = mergeFmt (mergeFmt (s.formats (6, c)) TABLE_BASE) HEADER_BLUE := by
    rw [updateSnapshot_spec cfg df t1 t2 s h]
    show applyFmtList s.formats (snapFmtWrites cfg (stripDF df)) (6, c) = _
    rw [applyFmtList_apply, snapFmtWrites, List.foldl_append, List.foldl_append]
    have hmeta : metaFmtWrites.foldl (fmtStep (6, c)) (s.formats (6, c))
        = s.formats (6, c) := by
      refine foldl_fmtStep_of_no_cover (6, c) metaFmtWrites ?_ _
      intro w hw
      simp only [metaFmtWrites, List.mem_cons, List.mem_singleton] at hw
      rcases hw with rfl | rfl | rfl | rfl | rfl | hw
      · simp [CellRange.containsCell]
      · simp [CellRange.containsCell]
      · simp [CellRange.containsCell]
      · simp [CellRange.containsCell]
      · simp [CellRange.containsCell]
      · simp at hw
    have hdata : (dataFormatBatch (stripDF df) cfg.columns 6).foldl
        (fmtStep (6, c)) (s.formats (6, c)) = s.formats (6, c) := by
      refine foldl_fmtStep_of_no_cover (6, c) _ ?_ _
      intro w hw
      obtain ⟨j, col, conf, fmt, _, _, _, rfl⟩ :=
        (dataFormatGo_mem cfg.columns 6 (stripDF df).nrows (stripDF df).cols 0 w).mp hw
      simp [CellRange.containsCell]
    rw [hmeta, hdata]
    have h1 : (CellRange.mk 1 6 (stripDF df).cols.length
        (6 + (stripDF df).nrows)).containsCell 6 c = true := by
      simp only [CellRange.containsCell, Bool.and_eq_true, decide_eq_true_eq]
      exact ⟨⟨⟨by omega, by omega⟩, hc1⟩, hc2⟩
    have h2 : (CellRange.mk 1 6 (stripDF df).cols.length 6).containsCell 6 c
        = true := by
      simp only [CellRange.containsCell, Bool.and_eq_true, decide_eq_true_eq]
      exact ⟨⟨⟨by omega, by omega⟩, hc1⟩, hc2⟩
    simp [visualStylesBatch, fmtStep, h1, h2]
  refine ⟨rfl, ?_, ?_, ?_, ?_, ?_⟩
  · intro r' c' hrc
    simp only [CellRange.containsCell, Bool.and_eq_true, decide_eq_true_eq] at hrc ⊢
    exact ⟨⟨⟨by omega, by omega⟩, hrc.1.2⟩, hrc.2⟩
  · rw [key]; rfl
  · rw [key]; rfl
  · rw [key]; rfl
  · rw [key]; rfl

/-- Witness for C8 at a concrete one-column dataset and header cell. -/
theorem header_style_overrides_witness :
    DataFrame.isEmpty ⟨[⟨"CPU", .numeric, [.num 10, .num 95]⟩]⟩ = false ∧
      1 ≤ 1 ∧
      1 ≤ (stripDF ⟨[⟨"CPU", .numeric, [.num 10, .num 95]⟩]⟩).cols.length ∧
      ((updateSnapshot ⟨"Servers", none, none, [], none⟩
          ⟨[⟨"CPU", .numeric, [.num 10, .num 95]⟩]⟩ "t1" "t2"
          ⟨4, 50, 10, fun _ => none, fun _ => {}, [], []⟩).formats (6, 1)).backgroundColor
        = HEADER_BLUE.backgroundColor ∧
      ((updateSnapshot ⟨"Servers", none, none, [], none⟩
          ⟨[⟨"CPU", .numeric, [.num 10, .num 95]⟩]⟩ "t1" "t2"
          ⟨4, 50, 10, fun _ => none, fun _ => {}, [], []⟩).formats (6, 1)).textFormat
        = HEADER_BLUE.textFormat ∧
      ((updateSnapshot ⟨"Servers", none, none, [], none⟩
          ⟨[⟨"CPU", .numeric, [.num 10, .num 95]⟩]⟩ "t1" "t2"
          ⟨4, 50, 10, fun _ => none, fun _ => {}, [], []⟩).formats (6, 1)).borders
        = TABLE_BASE.borders := by
  refine ⟨rfl, by decide, by decide, ?_, ?_, ?_⟩
  · exact (header_style_overrides ⟨"Servers", none, none, [], none⟩
      ⟨[⟨"CPU", .numeric, [.num 10, .num 95]⟩]⟩ "t1" "t2"
      ⟨4, 50, 10, fun _ => none, fun _ => {}, [], []⟩ 1 rfl (by decide) (by decide)).2.2.1
  · exact (header_style_overrides ⟨"Servers", none, none, [], none⟩
      ⟨[⟨"CPU", .numeric, [.num 10, .num 95]⟩]⟩ "t1" "t2"
      ⟨4, 50, 10, fun _ => none, fun _ => {}, [], []⟩ 1 rfl (by decide) (by decide)).2.2.2.1
  · exact (header_style_overrides ⟨"Servers", none, none, [], none⟩
      ⟨[⟨"CPU", .numeric, [.num 10, .num 95]⟩]⟩ "t1" "t2"
      ⟨4, 50, 10, fun _ => none, fun _ => {}, [], []⟩ 1 rfl (by decide) (by decide)).2.2.2.2.2

/-- Helper: writes that never target the cell leave it unchanged. -/
theorem applyCellWrites_no_target (W : List ((Nat × Nat) × CellVal))
    (p : Nat × Nat) (h : ∀ w ∈ W, w.1 ≠ p) :
    ∀ f, applyCellWrites f W p = f p := by
  induction W with
  | nil => intro f; rfl
  | cons w W ih =>
    intro f
    show applyCellWrites (applyCellWrite f w) W p = f p
    rw [ih (fun w' hw' => h w' (List.mem_cons_of_mem _ hw'))]
    unfold applyCellWrite
    rw [if_neg (fun hp => h w (List.mem_cons_self _ _) hp.symm)]

/-- Helper: shape of a column's data writes — rows from `r0` on, always
in column `j + 1`. -/
theorem colDataWrites_shape (sr j : Nat) :
    ∀ (vals : List Val) (r0 : Nat) (w : (Nat × Nat) × CellVal),
      w ∈ colDataWrites sr j vals r0 →
      ∃ rr, r0 ≤ rr ∧ w.1 = (sr + 1 + rr, j + 1) := by
  intro vals
  induction vals with
  | nil => intro r0 w hw; simp [colDataWrites] at hw
  | cons v rest ih =>
    intro r0 w hw
    rcases List.mem_cons.mp hw with rfl | hw'
    · exact ⟨r0, le_refl _, rfl⟩
    · obtain ⟨rr, hrr, hweq⟩ := ih (r0 + 1) w hw'
      exact ⟨rr, by omega, hweq⟩

/-- Helper: shape of the data block's writes — always in a column at or
beyond `j0`. -/
theorem tableDataGo_shape (sr : Nat) :
    ∀ (cols : List Column) (j0 : Nat) (w : (Nat × Nat) × CellVal),
      w ∈ tableDataGo sr cols j0 →
      ∃ jj, j0 ≤ jj ∧ w.1.2 = jj + 1 := by
  intro cols
  induction cols with
  | nil => intro j0 w hw; simp [tableDataGo] at hw
  | cons c rest ih =>
    intro j0 w hw
    rcases List.mem_append.mp hw with hw' | hw'
    · obtain ⟨rr, _, hweq⟩ := colDataWrites_shape sr j0 c.vals 0 w hw'
      exact ⟨j0, le_refl _, by rw [hweq]⟩
    · obtain ⟨jj, hjj, hweq⟩ := ih (j0 + 1) w hw'
      exact ⟨jj, by omega, hweq⟩

/-- Helper: the value written to a data cell by one column's writes. -/
theorem colDataWrites_at (sr j : Nat) :
    ∀ (vals : List Val) (r0 r : Nat) (v : Val)
      (f : Nat × Nat → Option CellVal), vals.get? r = some v →
      applyCellWrites f (colDataWrites sr j vals r0) (sr + 1 + (r0 + r), j + 1)
        = some (.val v) := by
  intro vals
  induction vals with
  | nil => intro r0 r v f hv; simp at hv
  | cons v0 rest ih =>
    intro r0 r v f hv
    show applyCellWrites (applyCellWrite f ((sr + 1 + r0, j + 1), CellVal.val v0))
      (colDataWrites sr j rest (r0 + 1)) _ = _
    cases r with
    | zero =>
      have hv0 : v0 = v := by simpa using hv
      subst hv0
      rw [applyCellWrites_no_target]
      · simp [applyCellWrite]
      · intro w hw
        obtain ⟨rr, hrr, hweq⟩ := colDataWrites_shape sr j rest (r0 + 1) w hw
        rw [hweq]
        intro hContra
        have hfst := congrArg Prod.fst hContra
        simp at hfst
        omega
    | succ k =>
      have hv' : rest.get? k = some v := by simpa using hv
      have harith : r0 + (k + 1) = (r0 + 1) + k := by omega
      rw [harith]
      exact ih (r0 + 1) k v _ hv'

/-- Helper: the value written to a data cell by the whole data block. -/
theorem tableDataGo_at (sr : Nat) :
    ∀ (cols : List Column) (j0 j : Nat) (col : Column) (r : Nat) (v : Val)
      (f : Nat × Nat → Option CellVal),
      cols.get? j = some col → col.vals.get? r = some v →
      applyCellWrites f (tableDataGo sr cols j0) (sr + 1 + r, j0 + j + 1)
        = some (.val v) := by
  intro cols
  induction cols with
  | nil => intro j0 j col r v f hj hv; simp at hj
  | cons c rest ih =>
    intro j0 j col r v f hj hv
    show applyCellWrites f
      (colDataWrites sr j0 c.vals 0 ++ tableDataGo sr rest (j0 + 1)) _ = _
    rw [applyCellWrites_append]
    cases j with
    | zero =>
      have hc : c = col := by simpa using hj
      subst hc
      rw [applyCellWrites_no_target]
      · have := colDataWrites_at sr j0 c.vals 0 r v f hv
        simpa using this
      · intro w hw
        obtain ⟨jj, hjj, hweq⟩ := tableDataGo_shape sr rest (j0 + 1) w hw
        intro hweq2
        rw [hweq2] at hweq
        simp at hweq
        omega
    | succ k =>
      have hj' : rest.get? k = some col := by simpa using hj
      have harith : j0 + (k + 1) + 1 = (j0 + 1) + k + 1 := by omega
      rw [harith]
      exact ih (j0 + 1) k col r v _ hj' hv

/-- Helper: `stripCol` preserves the column name. -/
theorem stripCol_name (c : Column) : (stripCol c).name = c.name := by
  unfold stripCol
  split <;> rfl

/-- Helper: `stripCol` preserves the number of values. -/
theorem stripCol_vals_length (c : Column) :
    (stripCol c).vals.length = c.vals.length := by
  unfold stripCol
  split <;> simp

/-- C10: before writing, snapshot publish strips every text value of the
dataset: the published cell of data row `r`, column `j` holds the
trimmed value when the column has `object` dtype and the original value
otherwise; trimming is exactly `String.trim` on text; and the strip is
performed on a fresh dataset whose column names and row count equal the
caller's (the caller's `DataFrame` object itself is never mutated —
`df.apply` rebinds the local name only). -/
theorem publish_strips_text (cfg : TabConfig) (df : DataFrame)
    (t1 t2 : String) (s : Sheet) (j r : Nat) (col : Column) (v : Val)
    (h : df.isEmpty = false)
    (hj : df.cols.get? j = some col) (hr : col.vals.get? r = some v) :
    ((updateSnapshot cfg df t1 t2 s).cells (6 + 1 + r, j + 1)
        = some (.val (if col.dtype = .obj then stripVal v else v))) ∧
      (∀ sv, v = .str sv → stripVal v = .str (pyStrip sv)) ∧
      (stripDF df).cols.map Column.name = df.cols.map Column.name ∧
      (stripDF df).nrows = df.nrows := by
  refine ⟨?_, ?_, ?_, ?_⟩
  · rw [updateSnapshot_spec cfg df t1 t2 s h]
    show snapCells cfg (stripDF df) t1 (6 + 1 + r, j + 1) = _
    rw [snapCells, applyCellWrites_append, tableWrites, applyCellWrites_append]
    have hj' : (stripDF df).cols.get? j = some (stripCol col) := by
      rw [stripDF]
      show (df.cols.map stripCol).get? j = _
      rw [List.get?_map, hj]
      rfl
    have hr' : (stripCol col).vals.get? r
        = some (if col.dtype = .obj then stripVal v else v) := by
      unfold stripCol
      split
      · show (col.vals.map stripVal).get? r = _
        rw [List.get?_map, hr]
        rfl
      · exact hr
    have := tableDataGo_at 6 (stripDF df).cols 0 j (stripCol col) r
      (if col.dtype = Dtype.obj then stripVal v else v)
      (applyCellWrites (applyCellWrites (fun _ => none) (metaCellWrites cfg t1))
        (tableHeaderGo 6 (stripDF df).cols 0)) hj' hr'
    simpa using this
  · intro sv hsv
    subst hsv
    rfl
  · rw [stripDF]
    show (df.cols.map stripCol).map Column.name = _
    rw [List.map_map]
    have : Column.name ∘ stripCol = Column.name := funext stripCol_name
    rw [this]
  · rw [stripDF]
    show DataFrame.nrows ⟨df.cols.map stripCol⟩ = df.nrows
    cases hc : df.cols with
    | nil => simp [DataFrame.nrows, hc]
    | cons c rest =>
      simp [DataFrame.nrows, hc, stripCol_vals_length]

/-- Witness for C10 at a one-column text dataset with padded values:
the published cell holds the trimmed text. -/
theorem publish_strips_text_witness :
    DataFrame.isEmpty ⟨[⟨"Servidor", .obj, [.str " S1 ", .str "S2"]⟩]⟩ = false ∧
      (DataFrame.cols ⟨[⟨"Servidor", .obj, [.str " S1 ", .str "S2"]⟩]⟩).get? 0
        = some ⟨"Servidor", .obj, [.str " S1 ", .str "S2"]⟩ ∧
      ((updateSnapshot ⟨"Tab", none, none, [], none⟩
          ⟨[⟨"Servidor", .obj, [.str " S1 ", .str "S2"]⟩]⟩ "t1" "t2"
          ⟨4, 50, 10, fun _ => none, fun _ => {}, [], []⟩).cells (6 + 1 + 0, 0 + 1)
        = some (.val (if Dtype.obj = Dtype.obj then stripVal (.str " S1 ") else .str " S1 "))) ∧
      stripVal (.str " S1 ") = .str "S1" := by
  refine ⟨rfl, rfl, ?_, by decide⟩
  exact (publish_strips_text ⟨"Tab", none, none, [], none⟩
    ⟨[⟨"Servidor", .obj, [.str " S1 ", .str "S2"]⟩]⟩ "t1" "t2"
    ⟨4, 50, 10, fun _ => none, fun _ => {}, [], []⟩ 0 0
    ⟨"Servidor", .obj, [.str " S1 ", .str "S2"]⟩ (.str " S1 ") rfl rfl rfl).1

/-- C4 (amended): history append on a non-empty dataset with
`history_tab` configured. When cell A1 of the history sheet is empty
the appender writes, from row 1, the header row — equal to the
dataset's display column names, in order — followed by the `n` data
rows; otherwise it appends exactly `n` rows after the existing last
row, leaving every previously existing row (the header included)
untouched. -/
theorem append_history_spec (cfg : TabConfig) (df : DataFrame)
    (st : HistSheet) (hname : String)
    (hne : df.isEmpty = false) (hh : cfg.history_tab = some hname) :
    (a1Empty st = true →
      (appendHistory cfg df st).rows = histHeaderBlock df ∧
      (appendHistory cfg df st).rows.head? =
        some (df.cols.map (fun c => CellVal.val (.str c.name))) ∧
      (appendHistory cfg df st).rows.length = df.nrows + 1) ∧
    (a1Empty st = false →
      (appendHistory cfg df st).rows.length = st.rows.length + df.nrows ∧
      (appendHistory cfg df st).rows.take st.rows.length = st.rows) := by
  constructor
  · intro ha
    have hrows : (appendHistory cfg df st).rows = histHeaderBlock df := by
      rw [appendHistory, if_neg (by simp [hne]), hh]
      simp [ha]
    refine ⟨hrows, ?_, ?_⟩
    · rw [hrows]; simp [histHeaderBlock]
    · rw [hrows]; simp [histHeaderBlock]
  · intro ha
    have hrows : (appendHistory cfg df st).rows = st.rows ++ histPayload df := by
      rw [appendHistory, if_neg (by simp [hne]), hh]
      simp [ha]
    refine ⟨?_, ?_⟩
    · rw [hrows]; simp [histPayload]
    · rw [hrows]; exact List.take_left st.rows (histPayload df)

/-- Witness for C4 (amended) at a fresh history sheet and at a sheet
already carrying a header and one data row. -/
theorem append_history_spec_witness :
    DataFrame.isEmpty ⟨[⟨"A", .obj, [.str "x"]⟩]⟩ = false ∧
      TabConfig.history_tab ⟨"t", none, some "h", [], none⟩ = some "h" ∧
      a1Empty ⟨[]⟩ = true ∧
      (appendHistory ⟨"t", none, some "h", [], none⟩ ⟨[⟨"A", .obj, [.str "x"]⟩]⟩
        ⟨[]⟩).rows = histHeaderBlock ⟨[⟨"A", .obj, [.str "x"]⟩]⟩ ∧
      a1Empty ⟨[[.val (.str "A")], [.val (.str "old")]]⟩ = false ∧
      (appendHistory ⟨"t", none, some "h", [], none⟩ ⟨[⟨"A", .obj, [.str "x"]⟩]⟩
          ⟨[[.val (.str "A")], [.val (.str "old")]]⟩).rows.length = 2 + 1 ∧
      (appendHistory ⟨"t", none, some "h", [], none⟩ ⟨[⟨"A", .obj, [.str "x"]⟩]⟩
          ⟨[[.val (.str "A")], [.val (.str "old")]]⟩).rows.take 2
        = [[.val (.str "A")], [.val (.str "old")]] := by
  refine ⟨rfl, rfl, rfl, ?_, rfl, ?_, ?_⟩
  · exact ((append_history_spec ⟨"t", none, some "h", [], none⟩
      ⟨[⟨"A", .obj, [.str "x"]⟩]⟩ ⟨[]⟩ "h" rfl rfl).1 rfl).1
  · exact ((append_history_spec ⟨"t", none, some "h", [], none⟩
      ⟨[⟨"A", .obj, [.str "x"]⟩]⟩ ⟨[[.val (.str "A")], [.val (.str "old")]]⟩ "h"
      rfl rfl).2 rfl).1
  · exact ((append_history_spec ⟨"t", none, some "h", [], none⟩
      ⟨[⟨"A", .obj, [.str "x"]⟩]⟩ ⟨[[.val (.str "A")], [.val (.str "old")]]⟩ "h"
      rfl rfl).2 rfl).2

/-- C4 (counterexample to the claim as stated): the source decides
between the header write and the append by looking only at cell A1
(`ws.get_values("A1")`), not at the whole first row. On a sheet whose
first row is `["", "x"]` — not an empty row — with a non-empty one-row
dataset, the claim's "otherwise" branch promises the first row is
preserved, but the code rewrites it with the header block. -/
theorem append_history_a1_counterexample :
    firstRowEmpty ⟨[[.val (.str ""), .val (.str "x")]]⟩ = false ∧
      DataFrame.isEmpty ⟨[⟨"A", .obj, [.str "y"]⟩]⟩ = false ∧
      TabConfig.history_tab ⟨"t", none, some "h", [], none⟩ = some "h" ∧
      (appendHistory ⟨"t", none, some "h", [], none⟩ ⟨[⟨"A", .obj, [.str "y"]⟩]⟩
          ⟨[[.val (.str ""), .val (.str "x")]]⟩).rows.take 1
        ≠ [[.val (.str ""), .val (.str "x")]] := by
  decide

/-- C2: `publish` on an empty dataset issues no mutation call at all, so
the target sheet's state is left exactly unchanged. -/
theorem publish_empty_noop (cfg : TabConfig) (df : DataFrame)
    (t1 t2 : String) (s : Sheet) (h : df.isEmpty = true) :
    updateSnapshotCalls cfg df t1 t2 s = [] ∧
      updateSnapshot cfg df t1 t2 s = s := by
  refine ⟨by simp [updateSnapshotCalls, h], ?_⟩
  simp [updateSnapshot, updateSnapshotCalls, h, applyCalls]

/-- Witness for C2 at a concrete empty dataset and sheet state. -/
theorem publish_empty_noop_witness :
    DataFrame.isEmpty ⟨[]⟩ = true ∧
      updateSnapshotCalls ⟨"Tab", none, none, [], none⟩ ⟨[]⟩ "t1" "t2"
          ⟨7, 100, 20, fun _ => none, fun _ => {}, [], []⟩ = [] ∧
      updateSnapshot ⟨"Tab", none, none, [], none⟩ ⟨[]⟩ "t1" "t2"
          ⟨7, 100, 20, fun _ => none, fun _ => {}, [], []⟩ =
        ⟨7, 100, 20, fun _ => none, fun _ => {}, [], []⟩ :=
  ⟨rfl,
   (publish_empty_noop ⟨"Tab", none, none, [], none⟩ ⟨[]⟩ "t1" "t2"
     ⟨7, 100, 20, fun _ => none, fun _ => {}, [], []⟩ rfl).1,
   (publish_empty_noop ⟨"Tab", none, none, [], none⟩ ⟨[]⟩ "t1" "t2"
     ⟨7, 100, 20, fun _ => none, fun _ => {}, [], []⟩ rfl).2⟩

/-- Helper: deleting at index 0 once per request drops one rule per
request from the front. -/
theorem applyCalls_deleteRuleCalls (c : Nat) (s : Sheet) :
    (applyCalls s (deleteRuleCalls c)).condRules = s.condRules.drop c := by
  induction c generalizing s with
  | zero => simp [deleteRuleCalls, applyCalls]
  | succ n ih =>
    have hsplit : deleteRuleCalls (n + 1)
        = deleteRuleCalls n ++ [SheetCall.deleteCondRule 0] := by
      simp [deleteRuleCalls, List.range_succ]
    have happ : applyCalls s (deleteRuleCalls n ++ [SheetCall.deleteCondRule 0])
        = applyCall (applyCalls s (deleteRuleCalls n)) (SheetCall.deleteCondRule 0) := by
      simp [applyCalls]
    have htail : ∀ t : Sheet,
        (applyCall t (SheetCall.deleteCondRule 0)).condRules = t.condRules.tail := by
      intro t; cases h : t.condRules <;> simp [applyCall, h]
    rw [hsplit, happ, htail, ih, List.tail_drop]

/-- C6: when the sheet metadata reports `c` existing conditional-format
rules, the cleanup issues exactly `c` delete requests, every one of them
at index 0, and applying them removes all `c` pre-existing rules even
though each deletion shifts the remaining rule indices down. -/
theorem clean_deletes_all_rules (c : Nat) (rules : List CondRule)
    (h : rules.length = c) :
    (deleteRuleCalls c).length = c ∧
      (∀ call ∈ deleteRuleCalls c, call = SheetCall.deleteCondRule 0) ∧
      ∀ s : Sheet, s.condRules = rules →
        (applyCalls s (deleteRuleCalls c)).condRules = [] := by
  refine ⟨by simp [deleteRuleCalls], by simp [deleteRuleCalls], ?_⟩
  intro s hs
  rw [applyCalls_deleteRuleCalls, hs, ← h, List.drop_length]

/-- Witness for C6 at a concrete sheet carrying two rules. -/
theorem clean_deletes_all_rules_witness :
    ([⟨[], "TEXT_EQ", ["a"], ALERT_RED⟩,
      ⟨[], "NUMBER_GREATER", ["9"], ALERT_RED⟩] : List CondRule).length = 2 ∧
      ((deleteRuleCalls 2).length = 2 ∧
        (∀ call ∈ deleteRuleCalls 2, call = SheetCall.deleteCondRule 0) ∧
        ∀ s : Sheet,
          s.condRules = [⟨[], "TEXT_EQ", ["a"], ALERT_RED⟩,
                         ⟨[], "NUMBER_GREATER", ["9"], ALERT_RED⟩] →
          (applyCalls s (deleteRuleCalls 2)).condRules = []) :=
  ⟨rfl, clean_deletes_all_rules 2 _ rfl⟩

/-- C9: the chart-creation batch of the dashboard builder is attempted a
second time exactly when the first attempt reports a rate-limit (HTTP
429) rejection, and then only once, after the fixed 15-second pause;
any other failure propagates at once, after the single attempt, and the
trace never contains a call other than the chart batches on the
dashboard sheet (so the earlier snapshot/history writes are not
touched, let alone undone). -/
theorem chart_retry_spec (sid : Nat) (r1 r2 : ApiResult) :
    (chartAttempts (createCharts sid r1 r2).1 = 2 ↔
        ∃ m, r1 = .err m ∧ has429 m = true) ∧
      (∀ m, r1 = .err m → has429 m = true →
        createCharts sid r1 r2 =
          ([.chartBatch sid, .pause 15, .chartBatch sid], r2)) ∧
      (∀ m, r1 = .err m → has429 m = false →
        createCharts sid r1 r2 = ([.chartBatch sid], .err m)) ∧
      (r1 = .ok → createCharts sid r1 r2 = ([.chartBatch sid], .ok)) ∧
      (∀ ev ∈ (createCharts sid r1 r2).1,
        ev = .chartBatch sid ∨ ev = .pause 15) := by
  cases r1 with
  | ok => simp [createCharts, chartAttempts]
  | err m =>
    by_cases h : has429 m = true
    · simp [createCharts, chartAttempts, h]
    · simp only [Bool.not_eq_true] at h
      simp [createCharts, chartAttempts, h]

/-- C5: threshold rule translation. Under a configured threshold: the
`!=` operator on a `TEXT`-formatted column yields a `CUSTOM_FORMULA`
rule whose formula is `=TRIM(cell)<>"value"`; the `between` operator
yields a `NUMBER_BETWEEN` rule carrying exactly the configured min and
max, in that order; and an operator absent from the registry (and not
`!=`) yields no rule for that column (the rule collector skips it). -/
theorem threshold_translation (conf : ColumnConfig) (th : Threshold)
    (colIdx rowStart rowEnd sid : Nat) (hth : conf.threshold = some th) :
    (th.operator.getD "" = "!=" → conf.format.getD "TEXT" = "TEXT" →
        ruleForColumn conf colIdx rowStart rowEnd sid =
          some ⟨[toGridRange ⟨colIdx, rowStart, colIdx, rowEnd⟩ sid],
            "CUSTOM_FORMULA",
            ["=TRIM(" ++ colLetter colIdx ++ toString rowStart ++ ")<>"
              ++ ("\"" ++ pyStr th.value ++ "\"")],
            ALERT_RED⟩) ∧
      (th.operator.getD "" = "between" →
        ruleForColumn conf colIdx rowStart rowEnd sid =
          some ⟨[toGridRange ⟨colIdx, rowStart, colIdx, rowEnd⟩ sid],
            "NUMBER_BETWEEN", [pyStr th.min, pyStr th.max], ALERT_RED⟩) ∧
      (th.operator.getD "" ≠ "!=" →
        CONDITION_MAP (th.operator.getD "") = none →
        ruleForColumn conf colIdx rowStart rowEnd sid = none) := by
  refine ⟨fun hop hfmt => ?_, fun hop => ?_, fun hop hmap => ?_⟩
  · simp [ruleForColumn, hth, hop, hfmt, String.append_assoc]
  · simp [ruleForColumn, hth, hop, CONDITION_MAP]
  · simp [ruleForColumn, hth, hop, hmap]

/-- Witness for C5: a text `!=` threshold, a `between` threshold and an
unregistered operator, each at concrete configuration, together with
the concrete evaluation of the `!=` formula string. -/
theorem threshold_translation_witness :
    (ColumnConfig.threshold ⟨"St", some "TEXT", some ⟨some "!=", some "OK", none, none⟩⟩
        = some ⟨some "!=", some "OK", none, none⟩ ∧
      ruleForColumn ⟨"St", some "TEXT", some ⟨some "!=", some "OK", none, none⟩⟩ 3 7 9 5 =
        some ⟨[toGridRange ⟨3, 7, 3, 9⟩ 5], "CUSTOM_FORMULA",
          ["=TRIM(" ++ colLetter 3 ++ toString (7 : Nat) ++ ")<>"
            ++ ("\"" ++ pyStr (some "OK") ++ "\"")], ALERT_RED⟩ ∧
      "=TRIM(" ++ colLetter 3 ++ toString (7 : Nat) ++ ")<>"
          ++ ("\"" ++ pyStr (some "OK") ++ "\"") = "=TRIM(C7)<>\"OK\"") ∧
      (ruleForColumn ⟨"CPU", some "NUMBER", some ⟨some "between", none, some "1", some "9"⟩⟩
          1 7 9 5 =
        some ⟨[toGridRange ⟨1, 7, 1, 9⟩ 5], "NUMBER_BETWEEN", ["1", "9"], ALERT_RED⟩) ∧
      (ruleForColumn ⟨"CPU", some "NUMBER", some ⟨some "weird", some "1", none, none⟩⟩
          1 7 9 5 = none) := by
  refine ⟨⟨rfl, ?_, by decide⟩, ?_, ?_⟩
  · exact (threshold_translation ⟨"St", some "TEXT", some ⟨some "!=", some "OK", none, none⟩⟩
      ⟨some "!=", some "OK", none, none⟩ 3 7 9 5 rfl).1 rfl rfl
  · exact (threshold_translation _ ⟨some "between", none, some "1", some "9"⟩ 1 7 9 5 rfl).2.1 rfl
  · exact (threshold_translation _ ⟨some "weird", some "1", none, none⟩ 1 7 9 5 rfl).2.2
      (by decide) rfl

end SheetUpdater
